import Mathlib

/-!
# Verification of the swupd-client bundle / clean / download engine

A shallow embedding of the bundle lifecycle code of the swupd client
(the bundle add/remove engine, the subscription engine, the state
directory cleaner and the synchronous curl download loop), together
with theorems settling the specification claims about it.

Sources embedded:
* the bundle engine (`add_subscriptions`, `install_bundles`,
  `remove_bundles`, `required_by`, `track_installed`, ...);
* `clean.c` (`remove_if`, `is_fullfile`, `is_pack_indicator`,
  `is_manifest`, `is_hashed_manifest`, `is_manifest_delta`,
  `clean_staged_manifests`, `clean_statedir`);
* the synchronous curl download path (`swupd_curl_get_file_full`,
  `determine_strategy`, `retry_download_loop`, `swupd_curl_get_file`,
  `swupd_curl_get_file_memory`).

External collaborators of those functions (the manifest store, the
filesystem, the network) are modelled as explicit environments whose
fields give the outcome of each collaborator call; values the headers
define but that are not part of the provided sources (the numeric
`swupd_code` values, `SWUPD_HASH_LEN`) are modelled from the spec.
-/

namespace Swupd

/-! ## Exit codes

Modelled from the spec: the spec fixes a closed set of distinct numeric
exit codes (`OK`, `COULDNT_LOAD_MOM`, `INVALID_BUNDLE`, ...).  The enum
values live in a header that is not part of the provided sources, so the
values below are representative; the development relies only on `OK = 0`
and on the codes being pairwise distinct and nonzero. -/

def SWUPD_OK : Nat := 0

def SWUPD_REQUIRED_BUNDLE_ERROR : Nat := 2

def SWUPD_INVALID_BUNDLE : Nat := 3

def SWUPD_COULDNT_LOAD_MOM : Nat := 4

def SWUPD_COULDNT_LOAD_MANIFEST : Nat := 5

def SWUPD_COULDNT_REMOVE_FILE : Nat := 6

def SWUPD_COULDNT_LIST_DIR : Nat := 7

def SWUPD_DISK_SPACE_ERROR : Nat := 9

def SWUPD_CURRENT_VERSION_UNKNOWN : Nat := 10

def SWUPD_BUNDLE_NOT_TRACKED : Nat := 11

def SWUPD_RECURSE_MANIFEST : Nat := 12

/-! ## Subscription engine: `add_subscriptions`

The flag bits are the ones documented at the definition of
`add_subscriptions` in the source: 1 = error happened (`add_sub_ERR`),
2 = new subscriptions (`add_sub_NEW`), 4 = bad name given
(`add_sub_BADNAME`). -/

def add_sub_ERR : Nat := 1

def add_sub_NEW : Nat := 2

def add_sub_BADNAME : Nat := 4

/-- Environment of `add_subscriptions`: the MoM contents
(`search_bundle_in_manifest` succeeds exactly on `momBundles`), the
manifest store (`includesOf b = none` models a failed
`load_manifest`, `some incs` a manifest whose `includes` list is
`incs`) and the installed-bundle test (`is_installed_bundle`). -/
structure SubEnv where
  momBundles : List String
  includesOf : String → Option (List String)
  installed : String → Bool

/-- Shallow embedding of `add_subscriptions` (bundle engine source).
The subscription list is threaded explicitly (the C mutates `*subs`);
the result is the flag word together with the final subscription list.
`fuel` bounds the include recursion depth plus the total number of list
iterations; `none` models the C looping forever on a cyclic include
graph (the spec requires includes to form a DAG).  Each loop iteration
ORs its contribution onto the result of the remaining iterations, which
matches the C `ret |=` accumulation; an early `goto out` is modelled by
not processing the remaining bundles.  Note that when the recursive call
on an include list reports `add_sub_ERR`, the C jumps to `out` *without*
merging the recursive flags into `ret`. -/
def add_subscriptions (env : SubEnv) : Nat → List String → List String → Bool → Nat →
    Option (Nat × List String)
  | _, [], subs, _, _ => some (0, subs)
  | 0, _ :: _, _, _, _ => none
  | Nat.succ fuel, bundle :: rest, subs, find_all, recursion =>
    if env.momBundles.contains bundle = false then
      -- bundle absent from MoM: warn, set BADNAME, continue
      (add_subscriptions env fuel rest subs find_all recursion).map
        (fun p => (add_sub_BADNAME ||| p.1, p.2))
    else if subs.contains bundle ∧ 0 < recursion then
      -- already subscribed while recursing an include tree: skip
      add_subscriptions env fuel rest subs find_all recursion
    else
      match env.includesOf bundle with
      | none =>
        -- load_manifest failed: ret |= add_sub_ERR; goto out
        some (add_sub_ERR, subs)
      | some incs =>
        match (if incs.isEmpty then some (0, subs)
               else add_subscriptions env fuel incs subs find_all (recursion + 1)) with
        | none => none
        | some (r, subs1) =>
          if r &&& add_sub_ERR ≠ 0 then
            -- recursive include processing failed: goto out, r is dropped
            some (0, subs1)
          else
            -- ret |= r, then decide whether to append a subscription
            if find_all = false ∧ env.installed bundle = true then
              (add_subscriptions env fuel rest subs1 find_all recursion).map
                (fun p => (r ||| p.1, p.2))
            else if subs1.contains bundle then
              (add_subscriptions env fuel rest subs1 find_all recursion).map
                (fun p => (r ||| p.1, p.2))
            else
              (add_subscriptions env fuel rest (bundle :: subs1) find_all recursion).map
                (fun p => ((r ||| add_sub_NEW) ||| p.1, p.2))

/-! ## Bundle removal: `remove_bundles` -/

/-- Environment of one `remove_bundles` loop iteration: outcomes of the
collaborator calls made while removing one bundle.  `versionOk` models
`get_current_version(path_prefix) >= 0`; `momOk` the `load_mom` calls;
`inMom` is `search_bundle_in_manifest`; `unloadOk b` the success of
`unload_tracked_bundle` (the bundle is found among the tracked
subscriptions); `recurseOk b` the success of `recurse_manifest` on the
remaining subscriptions; `requiredByOf b` the dependant lines collected
by `required_by`; `loadBundleRet b` the code returned by
`load_bundle_manifest` (0 = success with a manifest). -/
structure RemoveEnv where
  versionOk : Bool
  installed : String → Bool
  momOk : Bool
  inMom : String → Bool
  unloadOk : String → Bool
  recurseOk : String → Bool
  requiredByOf : String → List String
  loadBundleRet : String → Nat

/-- The per-bundle exit code of one iteration of the `remove_bundles`
loop, following the source's check order: the os-core guard, the
`is_installed_bundle` check, `load_mom`, `search_bundle_in_manifest`,
`unload_tracked_bundle`, `recurse_manifest`, the `required_by` guard,
and finally `load_bundle_manifest` followed by the actual removal
(whose code is 0). -/
def removeBundleStep (env : RemoveEnv) (bundle : String) : Nat :=
  if bundle = "os-core" then SWUPD_REQUIRED_BUNDLE_ERROR
  else if env.installed bundle = false then SWUPD_BUNDLE_NOT_TRACKED
  else if env.momOk = false then SWUPD_COULDNT_LOAD_MOM
  else if env.inMom bundle = false then SWUPD_INVALID_BUNDLE
  else if env.unloadOk bundle = false then SWUPD_BUNDLE_NOT_TRACKED
  else if env.recurseOk bundle = false then SWUPD_RECURSE_MANIFEST
  else if env.requiredByOf bundle ≠ [] then SWUPD_REQUIRED_BUNDLE_ERROR
  else env.loadBundleRet bundle

/-- The warning messages emitted by one `remove_bundles` loop iteration
(only the two `warn` calls of the loop are tracked). -/
def removeBundleWarns (env : RemoveEnv) (bundle : String) : List String :=
  if bundle = "os-core" then ["Bundle \"os-core\" not allowed to be removed\n"]
  else if env.installed bundle = false then
    ["Bundle \"" ++ bundle ++ "\" is not installed, skipping it...\n"]
  else []

/-- Observable outcome of `remove_bundles`: `retCode`/`bad`/`total` are
the locals of the same names; `removed` lists the bundles whose files
were deleted from the filesystem and whose tracking file was dropped
(`remove_files_in_manifest_from_fs` followed by `remove_tracked`), in
order; `warns` and `prints` collect the `warn`/`print` output. -/
structure RemoveState where
  retCode : Nat
  bad : Nat
  total : Nat
  removed : List String
  warns : List String
  prints : List String
  deriving Repr, DecidableEq

/-- The `for (; *bundles; ++bundles, total++)` loop of `remove_bundles`.
Every iteration runs to the loop end (the `goto`s inside the loop target
labels before the loop's final statements), where `total` was already
incremented and `if (ret) ret_code = ret;` records the failure — hence
`retCode` ends as the code of the *last* failing bundle. -/
def removeLoop (env : RemoveEnv) : List String → RemoveState → RemoveState
  | [], st => st
  | bundle :: rest, st =>
    let r := removeBundleStep env bundle
    removeLoop env rest
      { retCode := if r ≠ 0 then r else st.retCode
        bad := if r ≠ 0 then st.bad + 1 else st.bad
        total := st.total + 1
        removed := if r = 0 then st.removed ++ [bundle] else st.removed
        warns := st.warns ++ removeBundleWarns env bundle
        prints := st.prints }

/-- Shallow embedding of `remove_bundles` (bundle engine source), from
the `get_current_version` check to the final summary `print` and the
return of `ret_code`.  (`swupd_init` failure, which precedes everything
and returns its own code, is not modelled.) -/
def remove_bundles (env : RemoveEnv) (bundles : List String) : Nat × RemoveState :=
  if env.versionOk = false then
    (SWUPD_CURRENT_VERSION_UNKNOWN, ⟨SWUPD_CURRENT_VERSION_UNKNOWN, 0, 0, [], [], []⟩)
  else
    let st := removeLoop env bundles ⟨0, 0, 0, [], [], []⟩
    let summary :=
      if 0 < st.bad then
        "Failed to remove " ++ toString st.bad ++ " of " ++ toString st.total ++ " bundles\n"
      else
        "Successfully removed " ++ toString st.total ++
          (if 1 < st.total then " bundles\n" else " bundle\n")
    (st.retCode, { st with prints := st.prints ++ [summary] })

/-- The code of the last failing bundle: what `ret_code` holds after the
`remove_bundles` loop (0 when every bundle succeeded). -/
def lastNonZero (codes : List Nat) : Nat :=
  codes.foldl (fun acc c => if c ≠ 0 then c else acc) 0

/-! ## Manifests, file records and the file-set consolidator

The consolidator functions live outside the provided sources; they are
modelled from the spec (spec 4.4). -/

/-- A manifest file record (the fields the consolidator looks at). -/
structure FileRec where
  filename : String
  hash : String
  last_change : Nat
  is_deleted : Bool
  deriving Repr, DecidableEq

/-- A per-bundle manifest: component name, include list, manifest-level
content size and file list. -/
structure Manifest where
  component : String
  includes : List String
  contentsize : Nat
  files : List FileRec
  deriving Repr, DecidableEq

/-- Modelled from the spec: `files_from_bundles(manifests)` concatenates
the per-bundle file lists. -/
def files_from_bundles (manifests : List Manifest) : List FileRec :=
  (manifests.map Manifest.files).flatten

/-- Modelled from the spec: the consolidator's sort order `(filename,
is_deleted asc, last_change desc)`. -/
def fileLe (a b : FileRec) : Bool :=
  if a.filename ≠ b.filename then a.filename ≤ b.filename
  else if a.is_deleted ≠ b.is_deleted then a.is_deleted = false
  else b.last_change ≤ a.last_change

/-- Stable insertion into a `fileLe`-sorted list. -/
def insertFile (x : FileRec) : List FileRec → List FileRec
  | [] => [x]
  | y :: ys => if fileLe x y then x :: y :: ys else y :: insertFile x ys

/-- Stable insertion sort by `fileLe`. -/
def sortFiles (l : List FileRec) : List FileRec :=
  l.foldr insertFile []

/-- Keep the first record of each filename, in order. -/
def dedupFiles : List FileRec → List String → List FileRec
  | [], _ => []
  | x :: xs, seen =>
    if seen.contains x.filename then dedupFiles xs seen
    else x :: dedupFiles xs (x.filename :: seen)

/-- Modelled from the spec: `consolidate_files(list)` sorts by
`(filename, is_deleted asc, last_change desc)` and keeps one record per
filename, the first after the sort. -/
def consolidate_files (l : List FileRec) : List FileRec :=
  dedupFiles (sortFiles l) []

/-- Modelled from the spec: `filter_out_deleted_files` removes
tombstones. -/
def filter_out_deleted_files (l : List FileRec) : List FileRec :=
  l.filter (fun f => f.is_deleted = false)

/-- Modelled from the spec: `filter_out_existing_files(a, b)` keeps the
entries of `a` whose `(filename, hash)` does not appear in `b`. -/
def filter_out_existing_files (a b : List FileRec) : List FileRec :=
  a.filter (fun f => ¬ b.any (fun g => g.filename = f.filename ∧ g.hash = f.hash))

/-- `get_manifest_list_contentsize`: total content size of a manifest
list. -/
def get_manifest_list_contentsize (l : List Manifest) : Nat :=
  (l.map Manifest.contentsize).sum

/-! ## Bundle installation: `install_bundles` -/

/-- Environment of `install_bundles`: `sub` feeds `add_subscriptions`;
`recurse subs` is `recurse_manifest(mom, subs, NULL, false, NULL)`
(`none` = failure); `trackedSubs` is what `read_subscriptions` yields;
`skipDiskspaceCheck` is the `--skip-diskspace-check` global;
`fsFree` is `get_available_space` on `<path_prefix>/usr/` (negative =
undeterminable); `downloadRet` is the `download_fullfiles` result;
`hashCheckRemoveFail` models `swupd_rm` failing on a corrupt staged
file in the pre-install verification loop; `stagingRet` is the first
nonzero `do_staging` result (0 when every file stages). -/
structure InstallEnv where
  sub : SubEnv
  trackedSubs : List String
  recurse : List String → Option (List Manifest)
  skipDiskspaceCheck : Bool
  fsFree : Int
  downloadRet : Int
  hashCheckRemoveFail : Bool
  stagingRet : Nat

/-- Observable effects of `install_bundles`: `tracked` lists the bundles
for which `track_installed` was called (in call order); the two `Bool`s
record whether the pack download step ran `download_subscribed_packs`
and whether the fullfile download step was reached. -/
structure InstallEffects where
  tracked : List String
  packsDownloaded : Bool
  fullfilesAttempted : Bool
  deriving Repr, DecidableEq

/-- The `out:` epilogue of `install_bundles`: for every manifest of
`to_install_bundles` whose component was requested, count it installed
and call `track_installed` on it (this runs on failure paths too); then,
if an invalid bundle was provided and there is no other error, return
`SWUPD_INVALID_BUNDLE`. -/
def installOut (bundles : List String) (toInstall : List Manifest) (invalid : Bool)
    (ret : Nat) (tracked0 : List String) (packs fullfiles : Bool) :
    Nat × InstallEffects :=
  let tracked1 := (toInstall.filter (fun m => bundles.contains m.component)).map
    Manifest.component
  let ret1 := if invalid ∧ ret = 0 then SWUPD_INVALID_BUNDLE else ret
  (ret1, ⟨tracked0 ++ tracked1, packs, fullfiles⟩)

/-- Shallow embedding of `install_bundles` (bundle engine source).
`fuel` feeds `add_subscriptions`.  The result is the returned
`swupd_code` together with the observable effects; `none` models
`add_subscriptions` diverging on a cyclic include graph. -/
def install_bundles (env : InstallEnv) (fuel : Nat) (bundles subs0 : List String) :
    Option (Nat × InstallEffects) :=
  match add_subscriptions env.sub fuel bundles subs0 false 0 with
  | none => none
  | some (flags, subs1) =>
    -- step 1 epilogue: warn about already-installed requested bundles,
    -- tracking each of them
    let tracked0 := bundles.filter (fun b => env.sub.installed b = true)
    if flags.testBit 1 = false then
      -- no new bundle was subscribed: map the flags to a code and bail out
      let r :=
        if flags.testBit 0 = true then SWUPD_COULDNT_LOAD_MANIFEST
        else if flags.testBit 2 = true then SWUPD_INVALID_BUNDLE
        else SWUPD_OK
      some (installOut bundles [] false r tracked0 false false)
    else
      let invalid := flags.testBit 2
      match env.recurse subs1 with
      | none => some (installOut bundles [] invalid SWUPD_RECURSE_MANIFEST tracked0 false false)
      | some toInstall =>
        match env.recurse env.trackedSubs with
        | none =>
          some (installOut bundles toInstall invalid SWUPD_RECURSE_MANIFEST tracked0 false false)
        | some installedBundles =>
          -- step 2: consolidate the file lists
          let installedFiles := filter_out_deleted_files
            (consolidate_files (files_from_bundles installedBundles))
          let toInstallFiles := filter_out_existing_files
            (filter_out_deleted_files (consolidate_files (files_from_bundles toInstall)))
            installedFiles
          -- step 3: disk space check; the C compares with
          -- `bundle_size * 1.1 > fs_free`, modelled exactly on rationals
          -- as 11 * size > 10 * free (the C multiplies by the double 1.1)
          if env.skipDiskspaceCheck = false ∧
              (10 * env.fsFree < 11 * (get_manifest_list_contentsize toInstall : Int) ∨
                env.fsFree < 0) then
            some (installOut bundles toInstall invalid SWUPD_DISK_SPACE_ERROR tracked0
              false false)
          else
            -- step 4: packs are fetched when more than 10 files are needed
            let packs := decide (10 < toInstallFiles.length)
            -- step 5: fullfile download
            if env.downloadRet ≠ 0 then
              some (installOut bundles toInstall invalid env.downloadRet.natAbs tracked0
                packs true)
            else
              -- step 6: staged-hash verification, staging and rename
              if env.hashCheckRemoveFail = true then
                some (installOut bundles toInstall invalid SWUPD_COULDNT_REMOVE_FILE tracked0
                  packs true)
              else if env.stagingRet ≠ 0 then
                some (installOut bundles toInstall invalid env.stagingRet tracked0 packs true)
              else
                -- step 7 (post-update scripts) and return SWUPD_OK
                some (installOut bundles toInstall invalid SWUPD_OK tracked0 packs true)

/-! ## The state-directory cleaner (`clean.c`) -/

/-- Modelled from the spec: `SWUPD_HASH_LEN` counts the 64 hex
characters of a content hash plus the C string terminator. -/
def SWUPD_HASH_LEN : Nat := 65

/-- C `isxdigit` in the C locale. -/
def isxdigitChar (c : Char) : Bool :=
  c.isDigit || ('a' ≤ c && c ≤ 'f') || ('A' ≤ c && c ≤ 'F')

/-- `is_all_digits` of `clean.c`. -/
def is_all_digits (s : String) : Bool :=
  s.toList.all Char.isDigit

/-- `is_all_xdigits` of `clean.c` (true on the empty string, as in C). -/
def is_all_xdigits (s : List Char) : Bool :=
  s.all isxdigitChar

/-- `is_fullfile` of `clean.c`: the entry name is exactly
`SWUPD_HASH_LEN - 1` characters long. -/
def is_fullfile (name : String) : Bool :=
  name.length = SWUPD_HASH_LEN - 1

/-- `is_pack_indicator` of `clean.c`: at least as long as
`pack-` + `.tar`, starting with `pack-` and ending in `.tar`. -/
def is_pack_indicator (name : String) : Bool :=
  let l := name.toList
  if l.length < 5 + 4 then false
  else "pack-".toList.isPrefixOf l && ".tar".toList.isSuffixOf l

/-- `is_manifest` of `clean.c`: the name starts with `Manifest.`. -/
def is_manifest (name : String) : Bool :=
  "Manifest.".toList.isPrefixOf name.toList

/-- `is_manifest_delta` of `clean.c`: the name starts with
`Manifest-`. -/
def is_manifest_delta (name : String) : Bool :=
  "Manifest-".toList.isPrefixOf name.toList

/-- The characters after the last `'.'` of `l` (`strrchr(l, '.') + 1`);
`l` itself when there is no dot (the C only calls this when a dot is
present). -/
def afterLastDot (l : List Char) : List Char :=
  (l.reverse.takeWhile (fun c => c ≠ '.')).reverse

/-- `is_hashed_manifest` of `clean.c`.  The C sets
`int start = sizeof("Manifest.");`, which is 10 — the 9 characters of
the prefix plus the string terminator — so the dot counting and the
hash suffix search both start one character *past* the `Manifest.`
prefix.  The comment in the C claims the count starts right after the
prefix; the `name.toList.drop 10` below reproduces what the code
does. -/
def is_hashed_manifest (name : String) : Bool :=
  if is_manifest name = false then false
  else
    let ename := name.toList.drop 10
    if ename.count '.' ≠ 1 then false
    else is_all_xdigits (afterLastDot ename)

/-- The predicate the claim states for hashed manifests, written from
the spec's words: a `Manifest.` name with exactly one `'.'` after the
`Manifest.` prefix and an all-hex suffix after that dot. -/
def hashedManifestSpec (name : String) : Bool :=
  if is_manifest name = false then false
  else
    let ename := name.toList.drop 9
    if ename.count '.' ≠ 1 then false
    else is_all_xdigits (afterLastDot ename)

/-- A directory entry as seen by `remove_if`: its name, whether `lstat`
reports a directory, and — for directories — whether the directory has
children (so `rmdir` would fail). -/
structure Entry where
  name : String
  isDir : Bool
  dirNonEmpty : Bool
  deriving Repr, DecidableEq

/-- `remove_if(path, dry_run, pred)` of `clean.c` over the listing of
one directory: returns the entries left in the directory and the number
added to `stats.files_removed`.  In dry-run mode matching entries are
only printed but still counted (`ret` is 0 from the successful `lstat`
when the `if (ret == 0) stats.files_removed++;` line runs).  In real
mode a matching file is unlinked (modelled as always succeeding) and a
matching directory is `rmdir`ed, which fails iff it is non-empty; a
failed removal is not counted and the entry stays. -/
def remove_if (dry_run : Bool) (pred : String → Bool) :
    List Entry → List Entry × Nat
  | [] => ([], 0)
  | e :: rest =>
    let (rem, cnt) := remove_if dry_run pred rest
    if pred e.name = false then (e :: rem, cnt)
    else if dry_run then (e :: rem, cnt + 1)
    else if e.isDir && e.dirNonEmpty then (e :: rem, cnt)
    else (rem, cnt + 1)

/-- Environment of `clean_staged_manifests`: the
`get_current_version` result and the `read_mom_contents` result for
that version (`none` when the MoM file cannot be read — a best-effort
path in the C). -/
structure CleanEnv where
  currentVersion : Int
  momContents : Option String

/-- `pat` occurs as a contiguous sublist of the second argument. -/
def listHasSub (pat : List Char) : List Char → Bool
  | [] => pat.isEmpty
  | c :: rest => pat.isPrefixOf (c :: rest) || listHasSub pat rest

/-- `strstr(contents, name)`: `name` occurs as a substring. -/
def containsSub (contents name : String) : Bool :=
  listHasSub name.toList contents.toList

/-- `clean_staged_manifests` of `clean.c` over the all-digit-named
version directories of the state root (non-digit names are skipped by
the loop; digit-named entries are modelled as directories).  For each
directory: when not in `--all` mode and the current-version MoM text
contains the directory name, only hashed manifests are removed,
otherwise every `Manifest.*` entry is removed; afterwards
`rmdir(version_dir)` is attempted — also in dry-run mode — and removes
the directory iff it ended up empty. -/
def clean_staged_manifests (env : CleanEnv) (dry_run all : Bool) :
    List (String × List Entry) → List (String × List Entry) × Nat
  | [] => ([], 0)
  | (name, entries) :: rest =>
    let (rest', cnt) := clean_staged_manifests env dry_run all rest
    if is_all_digits name = false then ((name, entries) :: rest', cnt)
    else
      let momContents := if all then none
        else if env.currentVersion < 0 then none else env.momContents
      let keepCurrent :=
        match momContents with
        | some contents => containsSub contents name
        | none => false
      let (rem, cnt1) :=
        if keepCurrent then remove_if dry_run is_hashed_manifest entries
        else remove_if dry_run is_manifest entries
      if rem.isEmpty then (rest', cnt + cnt1)
      else ((name, rem) :: rest', cnt + cnt1)

/-- The state directory as `clean_statedir` sees it: the
`state/staged/` listing, the plain entries of the state root, and the
digit-named version directories with their contents. -/
structure StateFS where
  staged : List Entry
  rootFiles : List Entry
  versionDirs : List (String × List Entry)
  deriving Repr, DecidableEq

/-- `clean_statedir` of `clean.c`: remove fullfiles from
`state/staged/`, pack indicators and manifest deltas from the state
root, then clean the per-version manifest directories
(`state_dir/bundles` is never touched).  Returns the final state
directory and `stats.files_removed`. -/
def clean_statedir (env : CleanEnv) (dry_run all : Bool) (fs : StateFS) :
    StateFS × Nat :=
  let (staged', c1) := remove_if dry_run is_fullfile fs.staged
  let (root1, c2) := remove_if dry_run is_pack_indicator fs.rootFiles
  let (root2, c3) := remove_if dry_run is_manifest_delta root1
  let (vdirs', c4) := clean_staged_manifests env dry_run all fs.versionDirs
  (⟨staged', root2, vdirs'⟩, c1 + c2 + c3 + c4)

/-! ## `required_by` -/

/-- The dependant line built by `required_by`:
`string_or_die(&s, "%*s* %s\n", indent + 2, "", comp)` at recursion
level 1 and `string_or_die(&s, "%*s|-- %s\n", indent, "", comp)` below,
with `indent = (recursion - 1) * 4` (`%*s` of `""` prints that many
spaces). -/
def fmtLineSrc (recursion : Nat) (comp : String) : String :=
  if recursion = 1 then
    (String.mk (List.replicate ((recursion - 1) * 4 + 2) ' ') ++ "* ") ++ comp ++ "\n"
  else
    (String.mk (List.replicate ((recursion - 1) * 4) ' ') ++ "|-- ") ++ comp ++ "\n"

mutual

/-- Shallow embedding of `required_by` (bundle engine source): walk the
MoM submanifests, and for every submanifest whose `includes` list
contains `bundle_name` append a formatted dependant line and recurse on
the dependant's component at the incremented recursion level.  The
lines come back in the order the C appends them to `*reqd_by`.  `fuel`
bounds the recursion depth; `none` models the C recursing forever on a
cyclic include graph. -/
def required_by (mom : List Manifest) (name : String) (recursion0 fuel : Nat) :
    Option (List String) :=
  match fuel with
  | 0 => none
  | Nat.succ f => rbSubs mom mom name (recursion0 + 1) f
termination_by (fuel, 0, 0)

/-- The outer loop of `required_by` over the remaining submanifests. -/
def rbSubs (mom subsL : List Manifest) (name : String) (recursion fuel : Nat) :
    Option (List String) :=
  match subsL with
  | [] => some []
  | b :: rest =>
    match rbIncs mom b b.includes name recursion fuel,
        rbSubs mom rest name recursion fuel with
    | some x, some y => some (x ++ y)
    | _, _ => none
termination_by (fuel, 2, subsL.length)

/-- The inner loop of `required_by` over one submanifest's `includes`. -/
def rbIncs (mom : List Manifest) (b : Manifest) (incs : List String) (name : String)
    (recursion fuel : Nat) : Option (List String) :=
  match incs with
  | [] => some []
  | nm :: rest =>
    if nm = name then
      match required_by mom b.component recursion fuel,
          rbIncs mom b rest name recursion fuel with
      | some deeper, some tail =>
        some ((fmtLineSrc recursion b.component :: deeper) ++ tail)
      | _, _ => none
    else rbIncs mom b rest name recursion fuel
termination_by (fuel, 1, incs.length)

end

/-- Modelled from the spec: the frozen indentation grammar of
`required_by` output — first-level entries are prefixed `  * `, deeper
entries by `4 * (depth - 1)` spaces followed by `|-- `, with the
dependant's name appended. -/
def fmtLineSpec (depth : Nat) (comp : String) : String :=
  if depth = 1 then "  * " ++ comp ++ "\n"
  else (String.mk (List.replicate (4 * (depth - 1)) ' ') ++ "|-- ") ++ comp ++ "\n"

mutual

/-- Modelled from the spec: the depth-first walk of
`required_by` over `mom.submanifests`, emitting the `(depth,
dependant)` pair of every dependant found instead of a formatted
line. -/
def rbWalk (mom : List Manifest) (name : String) (recursion0 fuel : Nat) :
    Option (List (Nat × String)) :=
  match fuel with
  | 0 => none
  | Nat.succ f => rbWalkSubs mom mom name (recursion0 + 1) f
termination_by (fuel, 0, 0)

/-- Outer loop of the spec walk. -/
def rbWalkSubs (mom subsL : List Manifest) (name : String) (recursion fuel : Nat) :
    Option (List (Nat × String)) :=
  match subsL with
  | [] => some []
  | b :: rest =>
    match rbWalkIncs mom b b.includes name recursion fuel,
        rbWalkSubs mom rest name recursion fuel with
    | some x, some y => some (x ++ y)
    | _, _ => none
termination_by (fuel, 2, subsL.length)

/-- Inner loop of the spec walk. -/
def rbWalkIncs (mom : List Manifest) (b : Manifest) (incs : List String) (name : String)
    (recursion fuel : Nat) : Option (List (Nat × String)) :=
  match incs with
  | [] => some []
  | nm :: rest =>
    if nm = name then
      match rbWalk mom b.component recursion fuel,
          rbWalkIncs mom b rest name recursion fuel with
      | some deeper, some tail =>
        some (((recursion, b.component) :: deeper) ++ tail)
      | _, _ => none
    else rbWalkIncs mom b rest name recursion fuel
termination_by (fuel, 1, incs.length)

end

/-! ## Synchronous curl download path -/

/-- The `download_status` values distinguished by
`process_curl_error_codes`. -/
inductive DLStatus where
  | completed
  | partFile
  | forbidden
  | notFound
  | errorGeneric
  | writeError
  | timeoutHit
  | rangeError
  deriving Repr, DecidableEq

/-- The retry strategies of the curl source. -/
inductive RetryStrategy where
  | dontRetry
  | retryNow
  | retryWithDelay
  deriving Repr, DecidableEq

/-- `determine_strategy` of the curl source: no retry for a local
content URL; 403/404/local-write-error are not retried; range errors
and partial content retry immediately; generic errors and timeouts
retry after a delay. -/
def determine_strategy (contentUrlIsLocal : Bool) (status : DLStatus) : RetryStrategy :=
  if contentUrlIsLocal then .dontRetry
  else
    match status with
    | .forbidden => .dontRetry
    | .notFound => .dontRetry
    | .writeError => .dontRetry
    | .rangeError => .retryNow
    | .partFile => .retryNow
    | .errorGeneric => .retryWithDelay
    | .timeoutHit => .retryWithDelay
    | _ => .retryNow

/-- One `curl_easy_perform` of the sync download path: the resulting
`download_status` and whether curl wrote data into the destination
file. -/
structure Attempt where
  status : DLStatus
  wrote : Bool
  deriving Repr, DecidableEq

/-- Shallow embedding of `swupd_curl_get_file_full` of the curl source.
`inMemory` is `in_memory_file != NULL`; the disk state is the single
`Bool` "the destination file exists".  For a disk download the file
always exists after the perform (`fopen(path, "w")` creates it); on a
`DOWNLOAD_STATUS_RANGE_ERROR` the download restarts with resume
disabled (`goto restart_download`); on any other non-`COMPLETED` status
with `resume_ok == false` the file is unlinked before returning
(`unlink(filename)`; a no-op for the in-memory variant, whose
`filename` is `NULL`).  The attempt list feeds successive performs;
`none` models running out of modelled attempts. -/
def swupd_curl_get_file_full (inMemory resume_ok : Bool) :
    List Attempt → Bool → Option (DLStatus × Bool × List Attempt)
  | [], _ => none
  | a :: rest, fileExists =>
    let fileExists1 := if inMemory then fileExists else true
    if a.status = .rangeError then
      swupd_curl_get_file_full inMemory resume_ok rest fileExists1
    else
      let fileExists2 :=
        if inMemory = false ∧ a.status ≠ .completed ∧ resume_ok = false then false
        else fileExists1
      some (a.status, fileExists2, rest)

/-- Shallow embedding of `retry_download_loop` of the curl source.
Returns the C return value (0 on success, `-EIO` when the strategy says
not to retry, `-ECOMM` when the retries are exhausted or disabled)
together with the final disk state.  `fuel` bounds the loop; `none`
models exceeding the modelled attempts. -/
def retry_download_loop (inMemory resume_ok : Bool) (maxRetries : Nat)
    (contentUrlIsLocal : Bool) :
    Nat → Nat → List Attempt → Bool → Option (Int × Bool)
  | 0, _, _, _ => none
  | Nat.succ fuel, currentRetry, attempts, fileExists =>
    match swupd_curl_get_file_full inMemory resume_ok attempts fileExists with
    | none => none
    | some (status, fe, rest) =>
      if status = .completed then some (0, fe)
      else
        let currentRetry1 := currentRetry + 1
        if determine_strategy contentUrlIsLocal status = .dontRetry then
          some (-5, fe)
        else if maxRetries ≠ 0 then
          if currentRetry1 ≤ maxRetries then
            retry_download_loop inMemory resume_ok maxRetries contentUrlIsLocal
              fuel currentRetry1 rest fe
          else some (-70, fe)
        else some (-70, fe)

/-- `swupd_curl_get_file(url, filename)`:
`retry_download_loop(url, filename, NULL, false)` — a disk download
with resume disabled. -/
def swupd_curl_get_file (maxRetries : Nat) (contentUrlIsLocal : Bool) (fuel : Nat)
    (attempts : List Attempt) (fileExists0 : Bool) : Option (Int × Bool) :=
  retry_download_loop false false maxRetries contentUrlIsLocal fuel 0 attempts fileExists0

/-- `swupd_curl_get_file_memory(url, file_data)`:
`retry_download_loop(url, NULL, file_data, false)` — an in-memory
download with resume disabled. -/
def swupd_curl_get_file_memory (maxRetries : Nat) (contentUrlIsLocal : Bool) (fuel : Nat)
    (attempts : List Attempt) (fileExists0 : Bool) : Option (Int × Bool) :=
  retry_download_loop true false maxRetries contentUrlIsLocal fuel 0 attempts fileExists0

/-! ## Theorems -/

/-- C6: the claim describes hashed manifests as `Manifest.<bundle>.<hex>`
names with exactly one `'.'` after the `Manifest.` prefix — which is
also what the comment inside `is_hashed_manifest` says the code counts.
The code, however, starts counting at `sizeof("Manifest.")` = 10, one
character past the prefix (the neighbouring predicates use
`sizeof(...) - 1`).  On the entry name `Manifest..x.ab` — two dots
after the prefix, so not hashed under the claim — the code predicate
answers `true` (so default-mode `clean` deletes it in a preserved
version directory), and on `Manifest..abc` — exactly one dot after the
prefix followed by hex, so hashed under the claim — the code answers
`false`. -/
theorem C6_is_hashed_manifest_off_by_one :
    is_hashed_manifest "Manifest..x.ab" = true ∧
      hashedManifestSpec "Manifest..x.ab" = false ∧
      is_hashed_manifest "Manifest..abc" = false ∧
      hashedManifestSpec "Manifest..abc" = true := by
  decide

/-- Concrete clean environment for the C7 evaluation: current version
300, no readable current MoM. -/
def cleanEnvC7 : CleanEnv := ⟨300, none⟩

/-- Concrete state directory for the C7 evaluation: one empty
all-digit version directory `state/123/`. -/
def cleanFSC7 : StateFS := ⟨[], [], [("123", [])]⟩

/-- A second state directory for the C7 evaluation: `state/staged/`
holds one non-empty *directory* whose name is 64 characters long (a
staged directory blob with leftover content). -/
def cleanFSC7b : StateFS :=
  ⟨[⟨String.mk (List.replicate 64 'a'), true, true⟩], [], []⟩

/-- C7: `clean --dry-run` is claimed to make no filesystem change and
to report exactly what a real `clean` would delete.  The code, however,
attempts `rmdir(version_dir)` unconditionally — also in dry-run mode —
so a dry run removes the empty version directory `state/123/` while
reporting 0 files; and on a state whose `staged/` holds a non-empty
64-character-named directory, the dry run reports 1 file while the real
run removes nothing (its `rmdir` fails and `remove_if` does not recurse
into directories). -/
theorem C7_dry_run_not_pure :
    clean_statedir cleanEnvC7 true false cleanFSC7 = (⟨[], [], []⟩, 0) ∧
      (⟨[], [], []⟩ : StateFS) ≠ cleanFSC7 ∧
      (clean_statedir cleanEnvC7 true false cleanFSC7b).2 = 1 ∧
      (clean_statedir cleanEnvC7 false false cleanFSC7b).2 = 0 := by
  decide

/-- In-memory downloads never touch the on-disk destination state. -/
theorem get_file_full_mem (resume_ok : Bool) (attempts : List Attempt) (fe : Bool)
    (st : DLStatus) (fe' : Bool) (rest : List Attempt)
    (h : swupd_curl_get_file_full true resume_ok attempts fe = some (st, fe', rest)) :
    fe' = fe := by
  induction attempts generalizing fe with
  | nil => simp [swupd_curl_get_file_full] at h
  | cons a as ih =>
    rw [swupd_curl_get_file_full] at h
    by_cases hr : a.status = DLStatus.rangeError
    · rw [if_pos hr] at h
      exact ih _ h
    · rw [if_neg hr] at h
      simp only [Bool.not_eq_true, false_and, if_neg, Option.some.injEq,
        Prod.mk.injEq] at h
      obtain ⟨-, h2, -⟩ := h
      simp at h2
      exact h2.symm

/-- A failed non-resumable disk download ends with the destination file
unlinked. -/
theorem get_file_full_disk_fail (attempts : List Attempt) (fe : Bool)
    (st : DLStatus) (fe' : Bool) (rest : List Attempt)
    (h : swupd_curl_get_file_full false false attempts fe = some (st, fe', rest))
    (hst : st ≠ DLStatus.completed) :
    fe' = false := by
  induction attempts generalizing fe with
  | nil => simp [swupd_curl_get_file_full] at h
  | cons a as ih =>
    rw [swupd_curl_get_file_full] at h
    by_cases hr : a.status = DLStatus.rangeError
    · rw [if_pos hr] at h
      exact ih _ h
    · rw [if_neg hr] at h
      simp only [Option.some.injEq, Prod.mk.injEq] at h
      obtain ⟨h1, h2, -⟩ := h
      rw [← h2]
      simp [h1, hst]

/-- The retry loop with resume disabled, disk destination: a failed
return leaves no file. -/
theorem retry_loop_disk_fail (maxRetries : Nat) (contentUrlIsLocal : Bool) :
    ∀ (fuel cr : Nat) (attempts : List Attempt) (fe0 : Bool) (ret : Int) (fe : Bool),
    retry_download_loop false false maxRetries contentUrlIsLocal fuel cr attempts fe0 =
      some (ret, fe) → ret ≠ 0 → fe = false := by
  intro fuel
  induction fuel with
  | zero =>
    intro cr attempts fe0 ret fe h
    simp [retry_download_loop] at h
  | succ fuel ih =>
    intro cr attempts fe0 ret fe h hret
    rw [retry_download_loop] at h
    cases hgff : swupd_curl_get_file_full false false attempts fe0 with
    | none => rw [hgff] at h; simp at h
    | some x =>
      obtain ⟨st, feM, rest⟩ := x
      rw [hgff] at h
      simp only at h
      have hfeM : st ≠ DLStatus.completed → feM = false := fun hc =>
        get_file_full_disk_fail attempts fe0 st feM rest hgff hc
      by_cases hc : st = DLStatus.completed
      · rw [if_pos hc] at h
        simp only [Option.some.injEq, Prod.mk.injEq] at h
        exact absurd h.1.symm hret
      · rw [if_neg hc] at h
        split at h
        · simp only [Option.some.injEq, Prod.mk.injEq] at h
          rw [← h.2]; exact hfeM hc
        · split at h
          · split at h
            · exact ih _ _ _ _ _ h hret
            · simp only [Option.some.injEq, Prod.mk.injEq] at h
              rw [← h.2]; exact hfeM hc
          · simp only [Option.some.injEq, Prod.mk.injEq] at h
            rw [← h.2]; exact hfeM hc

/-- The retry loop with an in-memory destination: the disk state is
untouched. -/
theorem retry_loop_mem (resume_ok : Bool) (maxRetries : Nat) (contentUrlIsLocal : Bool) :
    ∀ (fuel cr : Nat) (attempts : List Attempt) (fe0 : Bool) (ret : Int) (fe : Bool),
    retry_download_loop true resume_ok maxRetries contentUrlIsLocal fuel cr attempts fe0 =
      some (ret, fe) → fe = fe0 := by
  intro fuel
  induction fuel with
  | zero =>
    intro cr attempts fe0 ret fe h
    simp [retry_download_loop] at h
  | succ fuel ih =>
    intro cr attempts fe0 ret fe h
    rw [retry_download_loop] at h
    cases hgff : swupd_curl_get_file_full true resume_ok attempts fe0 with
    | none => rw [hgff] at h; simp at h
    | some x =>
      obtain ⟨st, feM, rest⟩ := x
      rw [hgff] at h
      simp only at h
      have hfeM : feM = fe0 := get_file_full_mem resume_ok attempts fe0 st feM rest hgff
      by_cases hc : st = DLStatus.completed
      · rw [if_pos hc] at h
        simp only [Option.some.injEq, Prod.mk.injEq] at h
        rw [← h.2]; exact hfeM
      · rw [if_neg hc] at h
        split at h
        · simp only [Option.some.injEq, Prod.mk.injEq] at h
          rw [← h.2]; exact hfeM
        · split at h
          · split at h
            · rw [ih _ _ _ _ _ h]; exact hfeM
            · simp only [Option.some.injEq, Prod.mk.injEq] at h
              rw [← h.2]; exact hfeM
          · simp only [Option.some.injEq, Prod.mk.injEq] at h
            rw [← h.2]; exact hfeM

/-- C10: the synchronous non-resumable download entry points
(`swupd_curl_get_file` and `swupd_curl_get_file_memory` call
`retry_download_loop` with `resume_ok = false`) leave no partial file
on disk when the download does not complete: on every terminal failure
return the file was unlinked before returning (and the in-memory
variant never touches the destination disk state at all). -/
theorem C10_sync_download_no_leftover (maxRetries : Nat) (contentUrlIsLocal : Bool)
    (fuel : Nat) (attempts : List Attempt) (fe0 : Bool) (ret ret2 : Int) (fe fe2 : Bool) :
    (swupd_curl_get_file maxRetries contentUrlIsLocal fuel attempts fe0 = some (ret, fe) →
      ret ≠ 0 → fe = false) ∧
    (swupd_curl_get_file_memory maxRetries contentUrlIsLocal fuel attempts fe0 =
        some (ret2, fe2) → ret2 ≠ 0 → fe2 = fe0) := by
  constructor
  · intro h hret
    exact retry_loop_disk_fail maxRetries contentUrlIsLocal fuel 0 attempts fe0 ret fe h hret
  · intro h _
    exact retry_loop_mem false maxRetries contentUrlIsLocal fuel 0 attempts fe0 ret2 fe2 h

/-- C10 witness: a 404 download fails terminally with code `-EIO`; the
disk variant ends with no file on disk even though the attempt wrote
data, the memory variant leaves the (pre-existing) disk state alone. -/
theorem C10_sync_download_no_leftover_witness :
    ((false : Bool) = false) ∧ ((true : Bool) = true) :=
  ⟨(C10_sync_download_no_leftover 3 false 5 [⟨DLStatus.notFound, true⟩] true
      (-5) (-5) false true).1 rfl (by decide),
    (C10_sync_download_no_leftover 3 false 5 [⟨DLStatus.notFound, true⟩] true
      (-5) (-5) false true).2 rfl (by decide)⟩

/-! ### `remove_bundles` helper lemmas -/

/-- Closed form of the `remove_bundles` loop: every bundle is processed
(`total` grows by the list length), `bad` counts the failing bundles,
`ret_code` folds to the last failing code, files and tracking are
removed exactly for the succeeding bundles, and the per-bundle warnings
accumulate in order. -/
theorem removeLoop_eq (env : RemoveEnv) (bundles : List String) (st : RemoveState) :
    removeLoop env bundles st =
      { retCode := (bundles.map (removeBundleStep env)).foldl
          (fun a c => if c ≠ 0 then c else a) st.retCode
        bad := st.bad + (bundles.map (removeBundleStep env)).countP (fun c => decide (c ≠ 0))
        total := st.total + bundles.length
        removed := st.removed ++ bundles.filter (fun b => decide (removeBundleStep env b = 0))
        warns := st.warns ++ (bundles.map (removeBundleWarns env)).flatten
        prints := st.prints } := by
  induction bundles generalizing st with
  | nil => simp [removeLoop]
  | cons b bs ih =>
    rw [removeLoop]
    rw [ih]
    by_cases hb : removeBundleStep env b = 0
    · simp [hb, List.countP_cons, List.filter_cons, List.append_assoc]
      omega
    · simp [hb, List.countP_cons, List.filter_cons, List.append_assoc]
      omega

/-- If every code in the list is zero, the fold keeps the
accumulator. -/
theorem lastNonZeroFrom_all_zero (l : List Nat) (acc : Nat)
    (h : ∀ c ∈ l, c = 0) :
    l.foldl (fun a c => if c ≠ 0 then c else a) acc = acc := by
  induction l generalizing acc with
  | nil => rfl
  | cons c cs ih =>
    have hc : c = 0 := h c (List.mem_cons_self c cs)
    simp only [List.foldl_cons, hc]
    exact ih acc (fun d hd => h d (List.mem_cons_of_mem c hd))

/-- If some code in the list is nonzero, the fold result is
nonzero. -/
theorem lastNonZeroFrom_ne_zero (l : List Nat) (acc : Nat)
    (h : ∃ c ∈ l, c ≠ 0) :
    l.foldl (fun a c => if c ≠ 0 then c else a) acc ≠ 0 := by
  induction l generalizing acc with
  | nil => simp at h
  | cons c cs ih =>
    by_cases hcs : ∃ d ∈ cs, d ≠ 0
    · simpa only [List.foldl_cons] using ih _ hcs
    · push_neg at hcs
      obtain ⟨d, hd, hdne⟩ := h
      have hc : c ≠ 0 := by
        rcases List.mem_cons.1 hd with h1 | h2
        · exact h1 ▸ hdne
        · exact absurd (hcs d h2) hdne
      simp only [List.foldl_cons, if_pos hc]
      rw [lastNonZeroFrom_all_zero cs c hcs]
      exact hc

/-- The fold result is either the accumulator or an element of the
list. -/
theorem lastNonZeroFrom_cases (l : List Nat) (acc : Nat) :
    l.foldl (fun a c => if c ≠ 0 then c else a) acc = acc ∨
      l.foldl (fun a c => if c ≠ 0 then c else a) acc ∈ l := by
  induction l generalizing acc with
  | nil => exact Or.inl rfl
  | cons c cs ih =>
    simp only [List.foldl_cons]
    rcases ih (if c ≠ 0 then c else acc) with h | h
    · rw [h]
      by_cases hc : c ≠ 0
      · exact Or.inr (by simp [hc])
      · simp [hc]
    · exact Or.inr (List.mem_cons_of_mem c h)

/-- Closed form of `remove_bundles` when the current version is
known. -/
theorem remove_bundles_eq (env : RemoveEnv) (bundles : List String)
    (hv : env.versionOk = true) :
    remove_bundles env bundles =
      (lastNonZero (bundles.map (removeBundleStep env)),
        { retCode := lastNonZero (bundles.map (removeBundleStep env))
          bad := (bundles.map (removeBundleStep env)).countP (fun c => decide (c ≠ 0))
          total := bundles.length
          removed := bundles.filter (fun b => decide (removeBundleStep env b = 0))
          warns := (bundles.map (removeBundleWarns env)).flatten
          prints := [if 0 < (bundles.map (removeBundleStep env)).countP
                (fun c => decide (c ≠ 0)) then
              "Failed to remove " ++
                toString ((bundles.map (removeBundleStep env)).countP
                  (fun c => decide (c ≠ 0))) ++
                " of " ++ toString bundles.length ++ " bundles\n"
            else
              "Successfully removed " ++ toString bundles.length ++
                (if 1 < bundles.length then " bundles\n" else " bundle\n")] }) := by
  rw [remove_bundles, hv]
  rw [removeLoop_eq]
  simp [lastNonZero]

/-- A removal environment in which no bundle is installed. -/
def removeEnvNoneInstalled : RemoveEnv :=
  ⟨true, fun _ => false, true, fun _ => true, fun _ => true, fun _ => true,
    fun _ => [], fun _ => 0⟩

/-- C1 counterexample: on `swupd bundle-remove os-core foo` (with `foo`
not installed) the first failing bundle's code is
`REQUIRED_BUNDLE_ERROR`, but the command returns the code of the *last*
failing bundle, `BUNDLE_NOT_TRACKED` — not the first non-zero
per-bundle code as claimed (the loop executes `ret_code = ret` on every
failure, overwriting earlier codes). -/
theorem C1_not_first_nonzero_code :
    removeBundleStep removeEnvNoneInstalled "os-core" = SWUPD_REQUIRED_BUNDLE_ERROR ∧
      SWUPD_REQUIRED_BUNDLE_ERROR ≠ 0 ∧
      (remove_bundles removeEnvNoneInstalled ["os-core", "foo"]).1 =
        SWUPD_BUNDLE_NOT_TRACKED ∧
      SWUPD_BUNDLE_NOT_TRACKED ≠ SWUPD_REQUIRED_BUNDLE_ERROR := by
  decide

/-- C1 (amended): for every null-terminated bundle array, a failure on
one bundle is recorded and the remaining bundles are still processed
(`total` equals the number of requested bundles and `bad` counts the
failing ones), and when at least one bundle fails the command returns
the *last* non-zero per-bundle code and prints the aggregated summary
`Failed to remove N of M bundles`. -/
theorem C1_remove_bundles_aggregation (env : RemoveEnv) (bundles : List String)
    (hv : env.versionOk = true) :
    (remove_bundles env bundles).2.total = bundles.length ∧
    (remove_bundles env bundles).2.bad =
      (bundles.map (removeBundleStep env)).countP (fun c => decide (c ≠ 0)) ∧
    (remove_bundles env bundles).1 = lastNonZero (bundles.map (removeBundleStep env)) ∧
    ((∃ b ∈ bundles, removeBundleStep env b ≠ 0) →
      (remove_bundles env bundles).1 ≠ 0 ∧
      ("Failed to remove " ++
          toString ((bundles.map (removeBundleStep env)).countP (fun c => decide (c ≠ 0))) ++
          " of " ++ toString bundles.length ++ " bundles\n") ∈
        (remove_bundles env bundles).2.prints) := by
  rw [remove_bundles_eq env bundles hv]
  refine ⟨rfl, rfl, rfl, ?_⟩
  intro hex
  have hex2 : ∃ c ∈ bundles.map (removeBundleStep env), c ≠ 0 := by
    obtain ⟨b, hb, hbne⟩ := hex
    exact ⟨removeBundleStep env b, List.mem_map_of_mem _ hb, hbne⟩
  have hbadpos : 0 < (bundles.map (removeBundleStep env)).countP (fun c => decide (c ≠ 0)) := by
    rw [List.countP_pos_iff]
    obtain ⟨c, hc, hcne⟩ := hex2
    exact ⟨c, hc, by simpa using hcne⟩
  refine ⟨lastNonZeroFrom_ne_zero _ _ hex2, ?_⟩
  simp only [if_pos hbadpos]
  simp

/-- C1 witness: a two-bundle removal in which both bundles fail; the
command returns the last failing code and prints
`Failed to remove 2 of 2 bundles`. -/
theorem C1_remove_bundles_aggregation_witness :
    (remove_bundles removeEnvNoneInstalled ["os-core", "foo"]).2.total = 2 ∧
      (remove_bundles removeEnvNoneInstalled ["os-core", "foo"]).1 =
        lastNonZero (["os-core", "foo"].map (removeBundleStep removeEnvNoneInstalled)) ∧
      ("Failed to remove 2 of 2 bundles\n") ∈
        (remove_bundles removeEnvNoneInstalled ["os-core", "foo"]).2.prints := by
  have h := C1_remove_bundles_aggregation removeEnvNoneInstalled ["os-core", "foo"] rfl
  refine ⟨h.1, h.2.2.1, ?_⟩
  have h4 := (h.2.2.2 ⟨"os-core", by decide, by decide⟩).2
  simpa using h4

/-- C4 counterexample: an invocation whose target list contains
`os-core` does *not* always exit with `REQUIRED_BUNDLE_ERROR` — when a
later bundle fails with a different code, that code wins (the loop's
`ret_code = ret` overwrites the earlier failure). -/
theorem C4_os_core_exit_code_not_always :
    "os-core" ∈ ["os-core", "bar"] ∧
      (remove_bundles removeEnvNoneInstalled ["os-core", "bar"]).1 ≠
        SWUPD_REQUIRED_BUNDLE_ERROR := by
  decide

/-- C4 (amended): whenever the target list of `bundle-remove` contains
`os-core`, removal of os-core is refused: its per-bundle code is
`REQUIRED_BUNDLE_ERROR`, no file or tracking removal happens for it,
the message `Bundle "os-core" not allowed to be removed` is emitted,
and the command exits non-zero — with exit code
`REQUIRED_BUNDLE_ERROR` itself whenever every other listed bundle
succeeds (in particular for `bundle-remove os-core` alone); a later
failing bundle's code can replace it. -/
theorem C4_os_core_refused (env : RemoveEnv) (bundles : List String)
    (hv : env.versionOk = true) (hin : "os-core" ∈ bundles) :
    removeBundleStep env "os-core" = SWUPD_REQUIRED_BUNDLE_ERROR ∧
    "os-core" ∉ (remove_bundles env bundles).2.removed ∧
    "Bundle \"os-core\" not allowed to be removed\n" ∈ (remove_bundles env bundles).2.warns ∧
    (remove_bundles env bundles).1 ≠ 0 ∧
    ((∀ b ∈ bundles, b ≠ "os-core" → removeBundleStep env b = 0) →
      (remove_bundles env bundles).1 = SWUPD_REQUIRED_BUNDLE_ERROR) := by
  have hstep : removeBundleStep env "os-core" = SWUPD_REQUIRED_BUNDLE_ERROR := by
    rw [removeBundleStep]
    simp
  rw [remove_bundles_eq env bundles hv]
  have hex2 : ∃ c ∈ bundles.map (removeBundleStep env), c ≠ 0 := by
    refine ⟨removeBundleStep env "os-core", List.mem_map_of_mem _ hin, ?_⟩
    rw [hstep]
    decide
  refine ⟨hstep, ?_, ?_, lastNonZeroFrom_ne_zero _ _ hex2, ?_⟩
  · intro hmem
    rw [List.mem_filter] at hmem
    rw [hstep] at hmem
    exact absurd (by simpa using hmem.2) (by decide)
  · rw [List.mem_flatten]
    refine ⟨removeBundleWarns env "os-core", List.mem_map_of_mem _ hin, ?_⟩
    rw [removeBundleWarns]
    simp
  · intro hall
    show lastNonZero (bundles.map (removeBundleStep env)) = SWUPD_REQUIRED_BUNDLE_ERROR
    unfold lastNonZero
    have hcases := lastNonZeroFrom_cases (bundles.map (removeBundleStep env)) 0
    have hne := lastNonZeroFrom_ne_zero _ 0 hex2
    rcases hcases with h0 | hmem
    · exact absurd h0 hne
    · rw [List.mem_map] at hmem
      obtain ⟨b, hb, hbeq⟩ := hmem
      by_cases hbos : b = "os-core"
      · rw [← hbeq, hbos, hstep]
      · rw [← hbeq, hall b hb hbos] at hne
        exact absurd rfl hne

/-- A removal environment in which every bundle other than os-core can
be removed successfully. -/
def removeEnvHappy : RemoveEnv :=
  ⟨true, fun _ => true, true, fun _ => true, fun _ => true, fun _ => true,
    fun _ => [], fun _ => 0⟩

/-- C4 witness: `bundle-remove os-core good` with a removable `good`
bundle — os-core is refused with the warning, the run exits with
`REQUIRED_BUNDLE_ERROR`, and os-core is not among the removed
bundles. -/
theorem C4_os_core_refused_witness :
    removeBundleStep removeEnvHappy "os-core" = SWUPD_REQUIRED_BUNDLE_ERROR ∧
      "os-core" ∉ (remove_bundles removeEnvHappy ["os-core", "good"]).2.removed ∧
      (remove_bundles removeEnvHappy ["os-core", "good"]).1 =
        SWUPD_REQUIRED_BUNDLE_ERROR := by
  have h := C4_os_core_refused removeEnvHappy ["os-core", "good"] rfl (by decide)
  exact ⟨h.1, h.2.1, h.2.2.2.2 (by decide)⟩

/-! ### `add_subscriptions` flag lemmas -/

/-- A concatenation is non-empty iff one part is. -/
theorem append_ne_nil_iff {α : Type} (l2 l1 : List α) :
    (l2 ++ l1 ≠ []) ↔ (l2 ≠ [] ∨ l1 ≠ []) := by
  rw [ne_eq, List.append_eq_nil]
  tauto

/-- A number whose lowest bit is clear is untouched by `&&& 1`. -/
theorem and_one_eq_zero (r : Nat) (h : r.testBit 0 = false) : r &&& 1 = 0 := by
  have hm := Nat.and_one_is_mod r
  rw [Nat.testBit_zero] at h
  simp at h
  omega

/-- Conversely, `r &&& 1 = 0` means the lowest bit is clear. -/
theorem testBit0_of_and_one (r : Nat) (h : r &&& 1 = 0) : r.testBit 0 = false := by
  have hm := Nat.and_one_is_mod r
  rw [Nat.testBit_zero]
  simp
  omega

set_option maxHeartbeats 2000000 in
/-- Main invariant of `add_subscriptions` in a run where every manifest
fetch succeeds: `add_sub_ERR` is never set, the subscriptions grow by a
(possibly empty) block `l` of new components, `add_sub_NEW` is set iff
that block is non-empty, every newly subscribed component was not
installed (unless `find_all`), no component is subscribed twice, and
`add_sub_BADNAME` is set whenever some requested bundle is absent from
the MoM. -/
theorem add_subscriptions_fetch_ok (env : SubEnv)
    (hTotal : ∀ b, (env.includesOf b).isSome = true) :
    ∀ (fuel : Nat) (bundles subs : List String) (find_all : Bool) (recursion : Nat)
      (flags : Nat) (subs' : List String),
    add_subscriptions env fuel bundles subs find_all recursion = some (flags, subs') →
    flags.testBit 0 = false ∧
    (∃ l, subs' = l ++ subs ∧
      (flags.testBit 1 = true ↔ l ≠ []) ∧
      (∀ b ∈ l, find_all = true ∨ env.installed b = false) ∧
      (subs.Nodup → subs'.Nodup)) ∧
    (∀ b ∈ bundles, env.momBundles.contains b = false → flags.testBit 2 = true) := by
  intro fuel
  induction fuel with
  | zero =>
    intro bundles subs find_all recursion flags subs' h
    match bundles with
    | [] =>
      rw [add_subscriptions] at h
      simp only [Option.some.injEq, Prod.mk.injEq] at h
      obtain ⟨hf, hs⟩ := h
      subst hf; subst hs
      exact ⟨by decide, ⟨[], by simp, by decide, by simp, fun hd => hd⟩, by simp⟩
    | b :: rest =>
      rw [add_subscriptions] at h
      simp at h
  | succ fuel ih =>
    intro bundles subs find_all recursion flags subs' h
    match bundles with
    | [] =>
      rw [add_subscriptions] at h
      simp only [Option.some.injEq, Prod.mk.injEq] at h
      obtain ⟨hf, hs⟩ := h
      subst hf; subst hs
      exact ⟨by decide, ⟨[], by simp, by decide, by simp, fun hd => hd⟩, by simp⟩
    | b :: rest =>
      rw [add_subscriptions] at h
      by_cases hmom : env.momBundles.contains b = false
      · -- BADNAME branch: warn and continue with the rest
        rw [if_pos hmom] at h
        rw [Option.map_eq_some'] at h
        obtain ⟨⟨f1, s1⟩, hrec, heq⟩ := h
        simp only [Prod.mk.injEq] at heq
        obtain ⟨hf, hs⟩ := heq
        obtain ⟨ih0, ⟨l, hl, hnew, hinst, hnd⟩, hbad⟩ :=
          ih rest subs find_all recursion f1 s1 hrec
        subst hf; subst hs
        refine ⟨?_, ⟨l, hl, ?_, hinst, hnd⟩, ?_⟩
        · rw [Nat.testBit_lor, ih0]
          decide
        · have h41 : Nat.testBit add_sub_BADNAME 1 = false := by decide
          rw [Nat.testBit_lor, h41, Bool.false_or]
          exact hnew
        · intro b2 hb2 hb2mom
          have h42 : Nat.testBit add_sub_BADNAME 2 = true := by decide
          rw [Nat.testBit_lor, h42, Bool.true_or]
      · -- bundle present in the MoM
        rw [if_neg hmom] at h
        by_cases hskip : (subs.contains b = true ∧ 0 < recursion)
        · -- already subscribed while recursing: skip
          rw [if_pos hskip] at h
          obtain ⟨ih0, hblock, hbad⟩ := ih rest subs find_all recursion flags subs' h
          refine ⟨ih0, hblock, ?_⟩
          intro b2 hb2 hb2mom
          rcases List.mem_cons.1 hb2 with hb2b | hb2rest
          · rw [hb2b] at hb2mom
            rw [hb2mom] at hmom
            exact absurd rfl hmom
          · exact hbad b2 hb2rest hb2mom
        · rw [if_neg hskip] at h
          -- fetch the manifest; hTotal rules out the error branch
          cases hinc : env.includesOf b with
          | none =>
            have := hTotal b
            rw [hinc] at this
            simp at this
          | some incs =>
            rw [hinc] at h
            simp only at h
            -- the include recursion result
            have hinner : ∃ r subs1,
                (if incs.isEmpty then some (0, subs)
                 else add_subscriptions env fuel incs subs find_all (recursion + 1)) =
                  some (r, subs1) ∧
                r.testBit 0 = false ∧
                (∃ l1, subs1 = l1 ++ subs ∧
                  (r.testBit 1 = true ↔ l1 ≠ []) ∧
                  (∀ b2 ∈ l1, find_all = true ∨ env.installed b2 = false) ∧
                  (subs.Nodup → subs1.Nodup)) := by
              by_cases hemp : incs.isEmpty
              · refine ⟨0, subs, by rw [if_pos hemp], by decide,
                  ⟨[], by simp, by decide, by simp, fun hd => hd⟩⟩
              · rw [if_neg hemp]
                cases hrec : add_subscriptions env fuel incs subs find_all (recursion + 1) with
                | none =>
                  rw [if_neg hemp, hrec] at h
                  simp at h
                | some p =>
                  obtain ⟨r, subs1⟩ := p
                  obtain ⟨i0, iblock, -⟩ :=
                    ih incs subs find_all (recursion + 1) r subs1 hrec
                  exact ⟨r, subs1, rfl, i0, iblock⟩
            obtain ⟨r, subs1, hR, hr0, l1, hl1, hnew1, hinst1, hnd1⟩ := hinner
            rw [hR] at h
            simp only at h
            have herr : r &&& add_sub_ERR = 0 := by
              rw [add_sub_ERR]
              exact and_one_eq_zero r hr0
            rw [if_neg (by simp [herr])] at h
            -- the three continue/append cases
            by_cases hinstb : (find_all = false ∧ env.installed b = true)
            · rw [if_pos hinstb] at h
              rw [Option.map_eq_some'] at h
              obtain ⟨⟨f2, s2⟩, hrest, heq⟩ := h
              simp only [Prod.mk.injEq] at heq
              obtain ⟨hf, hs⟩ := heq
              obtain ⟨r0, ⟨l2, hl2, hnew2, hinst2, hnd2⟩, hbad2⟩ :=
                ih rest subs1 find_all recursion f2 s2 hrest
              subst hf; subst hs
              refine ⟨?_, ⟨l2 ++ l1, ?_, ?_, ?_, ?_⟩, ?_⟩
              · rw [Nat.testBit_lor, hr0, r0]; rfl
              · rw [hl2, hl1, List.append_assoc]
              · rw [Nat.testBit_lor, Bool.or_eq_true, hnew1, hnew2, append_ne_nil_iff]
                tauto
              · intro b2 hb2
                rcases List.mem_append.1 hb2 with h1 | h1
                · exact hinst2 b2 h1
                · exact hinst1 b2 h1
              · intro hnd
                exact hnd2 (hnd1 hnd)
              · intro b2 hb2 hb2mom
                rcases List.mem_cons.1 hb2 with hb2b | hb2rest
                · rw [hb2b] at hb2mom
                  rw [hb2mom] at hmom
                  exact absurd rfl hmom
                · rw [Nat.testBit_lor, Bool.or_eq_true]
                  exact Or.inr (hbad2 b2 hb2rest hb2mom)
            · rw [if_neg hinstb] at h
              by_cases hsub1 : subs1.contains b
              · rw [if_pos hsub1] at h
                rw [Option.map_eq_some'] at h
                obtain ⟨⟨f2, s2⟩, hrest, heq⟩ := h
                simp only [Prod.mk.injEq] at heq
                obtain ⟨hf, hs⟩ := heq
                obtain ⟨r0, ⟨l2, hl2, hnew2, hinst2, hnd2⟩, hbad2⟩ :=
                  ih rest subs1 find_all recursion f2 s2 hrest
                subst hf; subst hs
                refine ⟨?_, ⟨l2 ++ l1, ?_, ?_, ?_, ?_⟩, ?_⟩
                · rw [Nat.testBit_lor, hr0, r0]; rfl
                · rw [hl2, hl1, List.append_assoc]
                · rw [Nat.testBit_lor, Bool.or_eq_true, hnew1, hnew2, append_ne_nil_iff]
                  tauto
                · intro b2 hb2
                  rcases List.mem_append.1 hb2 with h1 | h1
                  · exact hinst2 b2 h1
                  · exact hinst1 b2 h1
                · intro hnd
                  exact hnd2 (hnd1 hnd)
                · intro b2 hb2 hb2mom
                  rcases List.mem_cons.1 hb2 with hb2b | hb2rest
                  · rw [hb2b] at hb2mom
                    rw [hb2mom] at hmom
                    exact absurd rfl hmom
                  · rw [Nat.testBit_lor, Bool.or_eq_true]
                    exact Or.inr (hbad2 b2 hb2rest hb2mom)
              · -- append the new subscription
                rw [if_neg hsub1] at h
                rw [Option.map_eq_some'] at h
                obtain ⟨⟨f2, s2⟩, hrest, heq⟩ := h
                simp only [Prod.mk.injEq] at heq
                obtain ⟨hf, hs⟩ := heq
                obtain ⟨r0, ⟨l2, hl2, hnew2, hinst2, hnd2⟩, hbad2⟩ :=
                  ih rest (b :: subs1) find_all recursion f2 s2 hrest
                subst hf; subst hs
                have hbinst : find_all = true ∨ env.installed b = false := by
                  rcases Bool.eq_false_or_eq_true find_all with hfa | hfa
                  · exact Or.inl hfa
                  · right
                    by_contra hbi
                    simp only [Bool.not_eq_false] at hbi
                    exact hinstb ⟨hfa, hbi⟩
                refine ⟨?_, ⟨l2 ++ b :: l1, ?_, ?_, ?_, ?_⟩, ?_⟩
                · rw [Nat.testBit_lor, Nat.testBit_lor, hr0, r0]; rfl
                · rw [hl2, hl1]
                  simp
                · have h21 : Nat.testBit add_sub_NEW 1 = true := by decide
                  constructor
                  · intro _
                    simp
                  · intro _
                    rw [Nat.testBit_lor, Nat.testBit_lor, h21]
                    simp
                · intro b2 hb2
                  rcases List.mem_append.1 hb2 with h1 | h1
                  · exact hinst2 b2 h1
                  · rcases List.mem_cons.1 h1 with h2 | h2
                    · rw [h2]; exact hbinst
                    · exact hinst1 b2 h2
                · intro hnd
                  refine hnd2 (List.Nodup.cons ?_ (hnd1 hnd))
                  intro hmem
                  have h2 : subs1.contains b = true := List.elem_iff.mpr hmem
                  rw [h2] at hsub1
                  exact hsub1 rfl
                · intro b2 hb2 hb2mom
                  rcases List.mem_cons.1 hb2 with hb2b | hb2rest
                  · rw [hb2b] at hb2mom
                    rw [hb2mom] at hmom
                    exact absurd rfl hmom
                  · rw [Nat.testBit_lor, Bool.or_eq_true]
                    exact Or.inr (hbad2 b2 hb2rest hb2mom)

/-- When the manifest fetch of the currently processed requested bundle
fails, the frame sets `add_sub_ERR` and aborts, returning exactly the
error flag. -/
theorem add_subscriptions_err_frame (env : SubEnv) (fuel : Nat) (b : String)
    (rest subs : List String) (find_all : Bool) (recursion : Nat)
    (hmom : env.momBundles.contains b = true)
    (hskip : subs.contains b = false ∨ recursion = 0)
    (hfetch : env.includesOf b = none) :
    add_subscriptions env (fuel + 1) (b :: rest) subs find_all recursion =
      some (add_sub_ERR, subs) := by
  rw [add_subscriptions]
  rw [if_neg (by rw [hmom]; simp)]
  have hneg : ¬(subs.contains b = true ∧ 0 < recursion) := by
    rintro ⟨hc, hr⟩
    rcases hskip with h1 | h1
    · rw [h1] at hc
      cases hc
    · omega
  rw [if_neg hneg]
  rw [hfetch]

/-- A bundle that is already subscribed is skipped when (and only in
the code path where) the recursion depth is positive. -/
theorem add_subscriptions_skip_subscribed (env : SubEnv) (fuel : Nat) (b : String)
    (rest subs : List String) (find_all : Bool) (recursion : Nat)
    (hmom : env.momBundles.contains b = true)
    (hsub : subs.contains b = true) (hrec : 0 < recursion) :
    add_subscriptions env (fuel + 1) (b :: rest) subs find_all recursion =
      add_subscriptions env fuel rest subs find_all recursion := by
  rw [add_subscriptions]
  rw [if_neg (by rw [hmom]; simp)]
  rw [if_pos ⟨hsub, hrec⟩]

/-- At recursion depth 0 an already-subscribed bundle is *not* skipped:
its manifest is fetched and its include list is still inspected (here
the include list holds a bundle absent from the MoM, and the
`add_sub_BADNAME` flag from that inspection is reported). -/
theorem add_subscriptions_depth0_inspects (env : SubEnv) (fuel : Nat) (b c : String)
    (subs : List String) (find_all : Bool)
    (hmom : env.momBundles.contains b = true)
    (hsub : subs.contains b = true)
    (hinc : env.includesOf b = some [c])
    (hmomc : env.momBundles.contains c = false) :
    add_subscriptions env (fuel + 2) [b] subs find_all 0 =
      some (add_sub_BADNAME, subs) := by
  rw [add_subscriptions]
  rw [if_neg (by rw [hmom]; simp)]
  rw [if_neg (by simp)]
  rw [hinc]
  simp only [List.isEmpty_cons, Bool.false_eq_true, if_false]
  have hrecinner : add_subscriptions env (fuel + 1) [c] subs find_all 1 =
      some (add_sub_BADNAME, subs) := by
    rw [add_subscriptions]
    rw [if_pos hmomc]
    rw [add_subscriptions]
    simp [add_sub_BADNAME]
  rw [hrecinner]
  simp only
  rw [if_neg (by decide)]
  by_cases hin : (find_all = false ∧ env.installed b = true)
  · rw [if_pos hin]
    rw [add_subscriptions]
    simp [add_sub_BADNAME]
  · rw [if_neg hin, if_pos hsub]
    rw [add_subscriptions]
    simp [add_sub_BADNAME]

/-- The `add_sub_ERR` bit only ever originates from a manifest fetch
failure of a bundle processed in the current call: flags coming back
from a recursive include call are merged only when their `ERR` bit is
clear, and the other contributions (`BADNAME`, `NEW`) never carry
bit 0. -/
theorem add_subscriptions_err_source (env : SubEnv) :
    ∀ (fuel : Nat) (bundles subs : List String) (fa : Bool) (recursion flags : Nat)
      (subs' : List String),
    add_subscriptions env fuel bundles subs fa recursion = some (flags, subs') →
    flags.testBit 0 = true → ∃ b ∈ bundles, env.includesOf b = none := by
  intro fuel
  induction fuel with
  | zero =>
    intro bundles subs fa recursion flags subs' h htb
    match bundles with
    | [] =>
      rw [add_subscriptions] at h
      simp only [Option.some.injEq, Prod.mk.injEq] at h
      obtain ⟨hf, -⟩ := h
      rw [← hf] at htb
      exact absurd htb (by decide)
    | b :: rest =>
      rw [add_subscriptions] at h
      simp at h
  | succ fuel ih =>
    intro bundles subs fa recursion flags subs' h htb
    match bundles with
    | [] =>
      rw [add_subscriptions] at h
      simp only [Option.some.injEq, Prod.mk.injEq] at h
      obtain ⟨hf, -⟩ := h
      rw [← hf] at htb
      exact absurd htb (by decide)
    | b :: rest =>
      rw [add_subscriptions] at h
      by_cases hmom : env.momBundles.contains b = false
      · rw [if_pos hmom] at h
        rw [Option.map_eq_some'] at h
        obtain ⟨⟨f1, s1⟩, hrec, heq⟩ := h
        simp only [Prod.mk.injEq] at heq
        obtain ⟨hf, -⟩ := heq
        rw [← hf, Nat.testBit_lor] at htb
        rw [(by decide : Nat.testBit add_sub_BADNAME 0 = false), Bool.false_or] at htb
        obtain ⟨c, hc, hcn⟩ := ih rest subs fa recursion f1 s1 hrec htb
        exact ⟨c, List.mem_cons_of_mem b hc, hcn⟩
      · rw [if_neg hmom] at h
        by_cases hskip : (subs.contains b = true ∧ 0 < recursion)
        · rw [if_pos hskip] at h
          obtain ⟨c, hc, hcn⟩ := ih rest subs fa recursion flags subs' h htb
          exact ⟨c, List.mem_cons_of_mem b hc, hcn⟩
        · rw [if_neg hskip] at h
          cases hinc : env.includesOf b with
          | none => exact ⟨b, List.mem_cons_self b rest, hinc⟩
          | some incs =>
            rw [hinc] at h
            simp only at h
            cases hR : (if incs.isEmpty then some ((0 : Nat), subs)
                else add_subscriptions env fuel incs subs fa (recursion + 1)) with
            | none =>
              rw [hR] at h
              simp at h
            | some q =>
              obtain ⟨r, subs1⟩ := q
              rw [hR] at h
              simp only at h
              by_cases herr : (r &&& add_sub_ERR ≠ 0)
              · rw [if_pos herr] at h
                simp only [Option.some.injEq, Prod.mk.injEq] at h
                obtain ⟨hf, -⟩ := h
                rw [← hf] at htb
                exact absurd htb (by decide)
              · rw [if_neg herr] at h
                have hr0 : r.testBit 0 = false := by
                  apply testBit0_of_and_one
                  push_neg at herr
                  exact herr
                have hrest : ∀ (c : Nat) (sX : List String),
                    Nat.testBit c 0 = false →
                    Option.map (fun q => (c ||| q.1, q.2))
                      (add_subscriptions env fuel rest sX fa recursion) =
                      some (flags, subs') →
                    ∃ d ∈ b :: rest, env.includesOf d = none := by
                  intro c sX hc0 hmap
                  rw [Option.map_eq_some'] at hmap
                  obtain ⟨⟨f2, s2⟩, hrec2, heq2⟩ := hmap
                  simp only [Prod.mk.injEq] at heq2
                  obtain ⟨hf, -⟩ := heq2
                  rw [← hf, Nat.testBit_lor, hc0, Bool.false_or] at htb
                  obtain ⟨d, hd, hdn⟩ := ih rest sX fa recursion f2 s2 hrec2 htb
                  exact ⟨d, List.mem_cons_of_mem b hd, hdn⟩
                by_cases hinstb : (fa = false ∧ env.installed b = true)
                · rw [if_pos hinstb] at h
                  exact hrest r subs1 hr0 h
                · rw [if_neg hinstb] at h
                  by_cases hcont : subs1.contains b = true
                  · rw [if_pos hcont] at h
                    exact hrest r subs1 hr0 h
                  · rw [if_neg hcont] at h
                    refine hrest (r ||| add_sub_NEW) (b :: subs1) ?_ h
                    rw [Nat.testBit_lor, hr0]
                    decide

/-- Position-independent form of the current-frame fetch-failure
behaviour of `add_subscriptions` at recursion depth 0 (the top-level
call on the requested bundles): when the fetch of the requested bundle
`b` fails, either the run had already ended during the earlier
requested bundles — then the result is exactly the run of that prefix
alone (an earlier iteration aborted, e.g. on a recursive include
failure, and `b` was never reached) — or the call stops at `b` and
returns `ERR` merged by bitwise OR with the flags accumulated by the
prefix. -/
theorem add_subscriptions_err_position (env : SubEnv) :
    ∀ (fuel : Nat) (pre : List String) (b : String) (rest subs : List String)
      (fa : Bool) (flags : Nat) (subs' : List String),
    env.momBundles.contains b = true →
    env.includesOf b = none →
    add_subscriptions env fuel (pre ++ b :: rest) subs fa 0 = some (flags, subs') →
    (add_subscriptions env fuel pre subs fa 0 = some (flags, subs')) ∨
    (∃ f1, add_subscriptions env fuel pre subs fa 0 = some (f1, subs') ∧
      flags = f1 ||| add_sub_ERR ∧ flags.testBit 0 = true) := by
  intro fuel
  induction fuel with
  | zero =>
    intro pre b rest subs fa flags subs' hmomb hincb h
    match pre with
    | [] =>
      rw [List.nil_append] at h
      rw [add_subscriptions] at h
      simp at h
    | p :: pre2 =>
      rw [List.cons_append] at h
      rw [add_subscriptions] at h
      simp at h
  | succ fuel ih =>
    intro pre b rest subs fa flags subs' hmomb hincb h
    match pre with
    | [] =>
      rw [List.nil_append] at h
      rw [add_subscriptions_err_frame env fuel b rest subs fa 0 hmomb (Or.inr rfl) hincb] at h
      simp only [Option.some.injEq, Prod.mk.injEq] at h
      obtain ⟨hf, hs⟩ := h
      right
      refine ⟨0, ?_, ?_, ?_⟩
      · rw [add_subscriptions, hs]
      · rw [← hf]
        simp [add_sub_ERR]
      · rw [← hf]
        decide
    | p :: pre2 =>
      rw [List.cons_append] at h
      rw [add_subscriptions] at h
      have hcont : ∀ (c : Nat) (sX : List String),
          Option.map (fun q => (c ||| q.1, q.2))
            (add_subscriptions env fuel (pre2 ++ b :: rest) sX fa 0) =
            some (flags, subs') →
          (Option.map (fun q => (c ||| q.1, q.2))
            (add_subscriptions env fuel pre2 sX fa 0) = some (flags, subs')) ∨
          (∃ f1, Option.map (fun q => (c ||| q.1, q.2))
            (add_subscriptions env fuel pre2 sX fa 0) = some (f1, subs') ∧
            flags = f1 ||| add_sub_ERR ∧ flags.testBit 0 = true) := by
        intro c sX hmap
        rw [Option.map_eq_some'] at hmap
        obtain ⟨⟨fI, sI⟩, hrecI, heqI⟩ := hmap
        simp only [Prod.mk.injEq] at heqI
        obtain ⟨hfI, hsI⟩ := heqI
        rcases ih pre2 b rest sX fa fI sI hmomb hincb hrecI with h1 | ⟨f1, hpre, hfl, -⟩
        · left
          rw [h1]
          simp only [Option.map_some']
          rw [hfI, hsI]
        · right
          refine ⟨c ||| f1, ?_, ?_, ?_⟩
          · rw [hpre]
            simp only [Option.map_some']
            rw [hsI]
          · rw [← hfI, hfl, Nat.lor_assoc]
          · rw [← hfI, hfl]
            rw [Nat.testBit_lor, Nat.testBit_lor,
              (by decide : Nat.testBit add_sub_ERR 0 = true), Bool.or_true, Bool.or_true]
      by_cases hmom : env.momBundles.contains p = false
      · rw [if_pos hmom] at h
        have hstand : add_subscriptions env (fuel + 1) (p :: pre2) subs fa 0 =
            Option.map (fun q => (add_sub_BADNAME ||| q.1, q.2))
              (add_subscriptions env fuel pre2 subs fa 0) := by
          rw [add_subscriptions, if_pos hmom]
        rcases hcont add_sub_BADNAME subs h with h1 | ⟨f1, h2, h3, h4⟩
        · left
          rw [hstand]
          exact h1
        · right
          exact ⟨f1, by rw [hstand]; exact h2, h3, h4⟩
      · rw [if_neg hmom] at h
        have hskip : ¬(subs.contains p = true ∧ 0 < 0) := by simp
        rw [if_neg hskip] at h
        cases hinc : env.includesOf p with
        | none =>
          left
          rw [hinc] at h
          rw [add_subscriptions, if_neg hmom, if_neg hskip, hinc]
          exact h
        | some incs =>
          rw [hinc] at h
          simp only at h
          cases hR : (if incs.isEmpty then some ((0 : Nat), subs)
              else add_subscriptions env fuel incs subs fa (0 + 1)) with
          | none =>
            rw [hR] at h
            simp at h
          | some q =>
            obtain ⟨r, s1⟩ := q
            rw [hR] at h
            simp only at h
            by_cases herr : (r &&& add_sub_ERR ≠ 0)
            · left
              rw [if_pos herr] at h
              rw [add_subscriptions, if_neg hmom, if_neg hskip, hinc]
              simp only
              rw [hR]
              simp only
              rw [if_pos herr]
              exact h
            · rw [if_neg herr] at h
              by_cases hinstb : (fa = false ∧ env.installed p = true)
              · rw [if_pos hinstb] at h
                have hstand : add_subscriptions env (fuel + 1) (p :: pre2) subs fa 0 =
                    Option.map (fun q => (r ||| q.1, q.2))
                      (add_subscriptions env fuel pre2 s1 fa 0) := by
                  rw [add_subscriptions, if_neg hmom, if_neg hskip, hinc]
                  simp only
                  rw [hR]
                  simp only
                  rw [if_neg herr, if_pos hinstb]
                rcases hcont r s1 h with h1 | ⟨f1, h2, h3, h4⟩
                · left
                  rw [hstand]
                  exact h1
                · right
                  exact ⟨f1, by rw [hstand]; exact h2, h3, h4⟩
              · rw [if_neg hinstb] at h
                by_cases hsub1 : s1.contains p = true
                · rw [if_pos hsub1] at h
                  have hstand : add_subscriptions env (fuel + 1) (p :: pre2) subs fa 0 =
                      Option.map (fun q => (r ||| q.1, q.2))
                        (add_subscriptions env fuel pre2 s1 fa 0) := by
                    rw [add_subscriptions, if_neg hmom, if_neg hskip, hinc]
                    simp only
                    rw [hR]
                    simp only
                    rw [if_neg herr, if_neg hinstb, if_pos hsub1]
                  rcases hcont r s1 h with h1 | ⟨f1, h2, h3, h4⟩
                  · left
                    rw [hstand]
                    exact h1
                  · right
                    exact ⟨f1, by rw [hstand]; exact h2, h3, h4⟩
                · rw [if_neg hsub1] at h
                  have hstand : add_subscriptions env (fuel + 1) (p :: pre2) subs fa 0 =
                      Option.map (fun q => ((r ||| add_sub_NEW) ||| q.1, q.2))
                        (add_subscriptions env fuel pre2 (p :: s1) fa 0) := by
                    rw [add_subscriptions, if_neg hmom, if_neg hskip, hinc]
                    simp only
                    rw [hR]
                    simp only
                    rw [if_neg herr, if_neg hinstb, if_neg hsub1]
                  rcases hcont (r ||| add_sub_NEW) (p :: s1) h with h1 | ⟨f1, h2, h3, h4⟩
                  · left
                    rw [hstand]
                    exact h1
                  · right
                    exact ⟨f1, by rw [hstand]; exact h2, h3, h4⟩

/-- Subscription environment of the C2 counterexample: `a` includes
`b` and `c`; `b` has no further includes; the manifest fetch for `c`
fails; nothing is installed. -/
def envC2 : SubEnv :=
  { momBundles := ["a", "b", "c"]
  , includesOf := fun s =>
      if s = "a" then some ["b", "c"] else if s = "b" then some [] else none
  , installed := fun _ => false }

/-- C2 counterexample: requesting `a` (whose includes are `b`, then
`c`) subscribes `b`, then the manifest fetch for `c` fails — the
recursive call returns `ERR ||| NEW`, and the caller's `goto out`
discards those flags.  The final result is flag word `0` with the new
subscription `b`: `NEW` is *not* set although a subscription was
appended, and `ERR` is *not* set although a per-bundle manifest fetch
failed, refuting the claimed flag semantics. -/
theorem C2_flags_lost_on_recursive_error :
    add_subscriptions envC2 9 ["a"] [] false 0 = some (0, ["b"]) ∧
      envC2.includesOf "c" = none ∧
      (0 : Nat).testBit 1 = false ∧
      (0 : Nat).testBit 0 = false := by
  decide

/-- C2 (amended): in a run of `add_subscriptions` in which every
per-bundle manifest fetch succeeds, `NEW` is set iff at least one new
subscription was appended, a bundle is appended only if it is not
currently installed (or `find_all` is true) and not yet subscribed, and
`BADNAME` is set whenever a requested bundle is absent from the MoM
(that bundle is skipped and processing continues); `ERR` is never set
in such a run.  When the manifest fetch of a requested bundle fails in
the top-level call (depth 0), the remaining bundles are not processed
and the call returns with `ERR` set, merged by bitwise OR with the
flags its earlier iterations accumulated — unless the run had already
ended during those earlier iterations (a fetch failure inside a
recursive include call aborts the caller and *discards* the recursive
call's flags, so the `ERR` and any `NEW`/`BADNAME` gathered there are
lost and the result is that of the prefix alone).  `ERR` is only ever
set by a fetch failure of a bundle processed in the current call.  A
bundle already subscribed is skipped only when the recursion depth is
greater than 0; at depth 0 its includes are still inspected.  The two
closed equations exhibit the OR-merge: a frame that already appended a
subscription returns `NEW ||| ERR = 3`, one that already saw a bad
name returns `BADNAME ||| ERR = 5`. -/
theorem C2_add_subscriptions_flags (env : SubEnv)
    (hTotal : ∀ b, (env.includesOf b).isSome = true)
    (fuel : Nat) (bundles subs : List String) (find_all : Bool) (recursion : Nat)
    (flags : Nat) (subs' : List String)
    (h : add_subscriptions env fuel bundles subs find_all recursion = some (flags, subs')) :
    (flags.testBit 0 = false ∧
      (∃ l, subs' = l ++ subs ∧
        (flags.testBit 1 = true ↔ l ≠ []) ∧
        (∀ b ∈ l, find_all = true ∨ env.installed b = false) ∧
        (subs.Nodup → subs'.Nodup)) ∧
      (∀ b ∈ bundles, env.momBundles.contains b = false → flags.testBit 2 = true)) ∧
    (∀ (env2 : SubEnv) (fuel2 : Nat) (pre2 : List String) (b : String)
        (rest2 subs2 : List String) (fa2 : Bool) (flags2 : Nat) (subs2' : List String),
      env2.momBundles.contains b = true →
      env2.includesOf b = none →
      add_subscriptions env2 fuel2 (pre2 ++ b :: rest2) subs2 fa2 0 =
        some (flags2, subs2') →
      (add_subscriptions env2 fuel2 pre2 subs2 fa2 0 = some (flags2, subs2')) ∨
      (∃ f1, add_subscriptions env2 fuel2 pre2 subs2 fa2 0 = some (f1, subs2') ∧
        flags2 = f1 ||| add_sub_ERR ∧ flags2.testBit 0 = true)) ∧
    (∀ (env2 : SubEnv) (fuel2 : Nat) (bundles2 subs2 : List String) (fa2 : Bool)
        (rec2 flags2 : Nat) (subs2' : List String),
      add_subscriptions env2 fuel2 bundles2 subs2 fa2 rec2 = some (flags2, subs2') →
      flags2.testBit 0 = true → ∃ b ∈ bundles2, env2.includesOf b = none) ∧
    (∀ (env2 : SubEnv) (fuel2 : Nat) (b : String) (rest2 subs2 : List String)
        (fa2 : Bool) (rec2 : Nat),
      env2.momBundles.contains b = true → subs2.contains b = true → 0 < rec2 →
      add_subscriptions env2 (fuel2 + 1) (b :: rest2) subs2 fa2 rec2 =
        add_subscriptions env2 fuel2 rest2 subs2 fa2 rec2) ∧
    (∀ (env2 : SubEnv) (fuel2 : Nat) (b c : String) (subs2 : List String) (fa2 : Bool),
      env2.momBundles.contains b = true → subs2.contains b = true →
      env2.includesOf b = some [c] → env2.momBundles.contains c = false →
      add_subscriptions env2 (fuel2 + 2) [b] subs2 fa2 0 =
        some (add_sub_BADNAME, subs2)) ∧
    (add_subscriptions envC2 9 ["b", "c"] [] false 1 = some (3, ["b"])) ∧
    (add_subscriptions envC2 9 ["zz", "c"] [] false 0 = some (5, [])) :=
  ⟨add_subscriptions_fetch_ok env hTotal fuel bundles subs find_all recursion flags subs' h,
    fun env2 fuel2 pre2 b rest2 subs2 fa2 flags2 subs2' h1 h2 h3 =>
      add_subscriptions_err_position env2 fuel2 pre2 b rest2 subs2 fa2 flags2 subs2'
        h1 h2 h3,
    fun env2 fuel2 bundles2 subs2 fa2 rec2 flags2 subs2' h1 h2 =>
      add_subscriptions_err_source env2 fuel2 bundles2 subs2 fa2 rec2 flags2 subs2' h1 h2,
    fun env2 fuel2 b rest2 subs2 fa2 rec2 h1 h2 h3 =>
      add_subscriptions_skip_subscribed env2 fuel2 b rest2 subs2 fa2 rec2 h1 h2 h3,
    fun env2 fuel2 b c subs2 fa2 h1 h2 h3 h4 =>
      add_subscriptions_depth0_inspects env2 fuel2 b c subs2 fa2 h1 h2 h3 h4,
    by decide, by decide⟩

/-- Subscription environment for the C2 witness: bundle `a` exists in
the MoM with no includes and is not installed; every fetch succeeds. -/
def envC2W : SubEnv :=
  { momBundles := ["a"]
  , includesOf := fun _ => some []
  , installed := fun _ => false }

/-- C2 witness: requesting `a` appends the subscription `a` and the
result flag word is exactly `add_sub_NEW`, whose `NEW` bit is set and
whose `ERR` bit is clear. -/
theorem C2_add_subscriptions_flags_witness :
    (∃ l, (["a"] : List String) = l ++ ([] : List String) ∧
      ((2 : Nat).testBit 1 = true ↔ l ≠ [])) ∧
      (2 : Nat).testBit 0 = false := by
  have h := C2_add_subscriptions_flags envC2W (fun _ => rfl) 2 ["a"] [] false 0 2 ["a"] rfl
  obtain ⟨⟨h0, ⟨l, hl1, hl2, -, -⟩, -⟩, -⟩ := h
  exact ⟨⟨l, hl1, hl2⟩, h0⟩

/-! ### `required_by` formatting -/

/-- The line the C format strings build coincides with the spec's
indentation grammar at every depth. -/
theorem fmtLine_eq (d : Nat) (c : String) : fmtLineSrc d c = fmtLineSpec d c := by
  rw [fmtLineSrc, fmtLineSpec]
  by_cases hd : d = 1
  · rw [if_pos hd, if_pos hd]
    subst hd
    have hpad : (String.mk (List.replicate ((1 - 1) * 4 + 2) ' ') ++ "* ") = "  * " := by
      decide
    rw [hpad]
  · rw [if_neg hd, if_neg hd, Nat.mul_comm]

/-- The include loop of `required_by` produces exactly the formatted
lines of the corresponding spec-walk segment. -/
theorem rbIncs_walk (mom : List Manifest) (b : Manifest) (name : String)
    (recursion fuel : Nat)
    (hIH : ∀ name2, required_by mom name2 recursion fuel =
      Option.map (List.map (fun p => fmtLineSrc p.1 p.2)) (rbWalk mom name2 recursion fuel)) :
    ∀ incs, rbIncs mom b incs name recursion fuel =
      Option.map (List.map (fun p => fmtLineSrc p.1 p.2))
        (rbWalkIncs mom b incs name recursion fuel) := by
  intro incs
  induction incs with
  | nil =>
    rw [rbIncs, rbWalkIncs]
    rfl
  | cons nm rest ih =>
    rw [rbIncs, rbWalkIncs]
    by_cases hnm : nm = name
    · rw [if_pos hnm, if_pos hnm]
      rw [hIH b.component, ih]
      cases rbWalk mom b.component recursion fuel with
      | none => rfl
      | some deeper =>
        cases rbWalkIncs mom b rest name recursion fuel with
        | none => rfl
        | some tail => simp
    · rw [if_neg hnm, if_neg hnm]
      exact ih

/-- The submanifest loop of `required_by` produces exactly the
formatted lines of the corresponding spec-walk segment. -/
theorem rbSubs_walk (mom : List Manifest) (name : String) (recursion fuel : Nat)
    (hIH : ∀ name2, required_by mom name2 recursion fuel =
      Option.map (List.map (fun p => fmtLineSrc p.1 p.2)) (rbWalk mom name2 recursion fuel)) :
    ∀ subsL, rbSubs mom subsL name recursion fuel =
      Option.map (List.map (fun p => fmtLineSrc p.1 p.2))
        (rbWalkSubs mom subsL name recursion fuel) := by
  intro subsL
  induction subsL with
  | nil =>
    rw [rbSubs, rbWalkSubs]
    rfl
  | cons b rest ih =>
    rw [rbSubs, rbWalkSubs]
    rw [rbIncs_walk mom b name recursion fuel hIH b.includes, ih]
    cases rbWalkIncs mom b b.includes name recursion fuel with
    | none => rfl
    | some x =>
      cases rbWalkSubs mom rest name recursion fuel with
      | none => rfl
      | some y => simp

/-- `required_by` equals the spec walk rendered through the C format
strings. -/
theorem required_by_walk :
    ∀ (fuel : Nat) (mom : List Manifest) (name : String) (rec0 : Nat),
    required_by mom name rec0 fuel =
      Option.map (List.map (fun p => fmtLineSrc p.1 p.2)) (rbWalk mom name rec0 fuel) := by
  intro fuel
  induction fuel with
  | zero =>
    intro mom name rec0
    rw [required_by, rbWalk]
    rfl
  | succ f ih =>
    intro mom name rec0
    rw [required_by, rbWalk]
    exact rbSubs_walk mom name (rec0 + 1) f (fun name2 => ih mom name2 (rec0 + 1)) mom

/-- C8: every line produced by `required_by` for a dependant found at
recursion depth `d` is the dependant's name prefixed by `  * ` when
`d = 1` and by `4 * (d - 1)` spaces followed by `|-- ` when `d > 1`:
the output is exactly the depth-first spec walk over
`mom.submanifests` (which recurses on each dependant found) rendered
through the spec's indentation grammar. -/
theorem C8_required_by_format (mom : List Manifest) (name : String) (rec0 fuel : Nat) :
    required_by mom name rec0 fuel =
      Option.map (List.map (fun p => fmtLineSpec p.1 p.2)) (rbWalk mom name rec0 fuel) := by
  rw [required_by_walk fuel mom name rec0]
  have hfe : (fun p : Nat × String => fmtLineSrc p.1 p.2) =
      (fun p : Nat × String => fmtLineSpec p.1 p.2) :=
    funext (fun p => fmtLine_eq p.1 p.2)
  rw [hfe]

/-! ### `install_bundles` lemmas -/

/-- When every requested bundle is absent from the MoM,
`add_subscriptions` reports exactly `BADNAME` (or nothing for an empty
request) and leaves the subscriptions untouched. -/
theorem add_subscriptions_all_absent (env : SubEnv) :
    ∀ (bundles : List String) (fuel : Nat) (subs : List String) (fa : Bool) (rec : Nat),
    (∀ b ∈ bundles, env.momBundles.contains b = false) → bundles.length ≤ fuel →
    add_subscriptions env fuel bundles subs fa rec =
      some (if bundles.isEmpty then 0 else add_sub_BADNAME, subs) := by
  intro bundles
  induction bundles with
  | nil =>
    intro fuel subs fa rec _ _
    rw [add_subscriptions]
    rfl
  | cons b rest ih =>
    intro fuel subs fa rec hb hlen
    match fuel with
    | 0 => simp at hlen
    | Nat.succ f =>
      rw [add_subscriptions]
      rw [if_pos (hb b (List.mem_cons_self b rest))]
      have hlen2 : rest.length ≤ f := by
        simp only [List.length_cons] at hlen
        omega
      rw [ih f subs fa rec (fun b2 hb2 => hb b2 (List.mem_cons_of_mem b hb2)) hlen2]
      by_cases hre : rest.isEmpty
      · rw [if_pos hre]
        simp [add_sub_BADNAME]
      · rw [if_neg hre]
        simp [add_sub_BADNAME]

/-- With `find_all = false`, `add_subscriptions` never appends a
subscription for an installed bundle: an installed component found in
the final subscription list was already in the initial one. -/
theorem add_subscriptions_no_reinstall (env : SubEnv) :
    ∀ (fuel : Nat) (bundles subs : List String) (recursion flags : Nat)
      (subs' : List String),
    add_subscriptions env fuel bundles subs false recursion = some (flags, subs') →
    ∀ b2, env.installed b2 = true → b2 ∈ subs' → b2 ∈ subs := by
  intro fuel
  induction fuel with
  | zero =>
    intro bundles subs recursion flags subs' h b2 hb2 hmem
    match bundles with
    | [] =>
      rw [add_subscriptions] at h
      simp only [Option.some.injEq, Prod.mk.injEq] at h
      obtain ⟨-, hs⟩ := h
      subst hs
      exact hmem
    | b :: rest =>
      rw [add_subscriptions] at h
      simp at h
  | succ fuel ih =>
    intro bundles subs recursion flags subs' h b2 hb2 hmem
    match bundles with
    | [] =>
      rw [add_subscriptions] at h
      simp only [Option.some.injEq, Prod.mk.injEq] at h
      obtain ⟨-, hs⟩ := h
      subst hs
      exact hmem
    | b :: rest =>
      rw [add_subscriptions] at h
      by_cases hmom : env.momBundles.contains b = false
      · rw [if_pos hmom] at h
        rw [Option.map_eq_some'] at h
        obtain ⟨⟨f1, s1⟩, hrec, heq⟩ := h
        simp only [Prod.mk.injEq] at heq
        obtain ⟨-, hs⟩ := heq
        subst hs
        exact ih rest subs recursion f1 _ hrec b2 hb2 hmem
      · rw [if_neg hmom] at h
        by_cases hskip : (subs.contains b = true ∧ 0 < recursion)
        · rw [if_pos hskip] at h
          exact ih rest subs recursion flags subs' h b2 hb2 hmem
        · rw [if_neg hskip] at h
          cases hinc : env.includesOf b with
          | none =>
            rw [hinc] at h
            simp only [Option.some.injEq, Prod.mk.injEq] at h
            obtain ⟨-, hs⟩ := h
            subst hs
            exact hmem
          | some incs =>
            rw [hinc] at h
            simp only at h
            cases hR : (if incs.isEmpty then some ((0 : Nat), subs)
                else add_subscriptions env fuel incs subs false (recursion + 1)) with
            | none =>
              rw [hR] at h
              simp at h
            | some p =>
              obtain ⟨r, subs1⟩ := p
              rw [hR] at h
              simp only at h
              have hsubs1 : ∀ c, env.installed c = true → c ∈ subs1 → c ∈ subs := by
                by_cases hemp : incs.isEmpty
                · rw [if_pos hemp] at hR
                  simp only [Option.some.injEq, Prod.mk.injEq] at hR
                  obtain ⟨-, hs1⟩ := hR
                  subst hs1
                  exact fun c _ hc => hc
                · rw [if_neg hemp] at hR
                  exact fun c hc hcm => ih incs subs (recursion + 1) r subs1 hR c hc hcm
              by_cases herr : (r &&& add_sub_ERR ≠ 0)
              · rw [if_pos herr] at h
                simp only [Option.some.injEq, Prod.mk.injEq] at h
                obtain ⟨-, hs⟩ := h
                subst hs
                exact hsubs1 b2 hb2 hmem
              · rw [if_neg herr] at h
                by_cases hinstb : env.installed b = true
                · rw [if_pos ⟨by simp, hinstb⟩] at h
                  rw [Option.map_eq_some'] at h
                  obtain ⟨⟨f2, s2⟩, hrest, heq⟩ := h
                  simp only [Prod.mk.injEq] at heq
                  obtain ⟨-, hs⟩ := heq
                  subst hs
                  exact hsubs1 b2 hb2 (ih rest subs1 recursion f2 _ hrest b2 hb2 hmem)
                · rw [if_neg (by simp [hinstb])] at h
                  by_cases hcont : subs1.contains b = true
                  · rw [if_pos hcont] at h
                    rw [Option.map_eq_some'] at h
                    obtain ⟨⟨f2, s2⟩, hrest, heq⟩ := h
                    simp only [Prod.mk.injEq] at heq
                    obtain ⟨-, hs⟩ := heq
                    subst hs
                    exact hsubs1 b2 hb2 (ih rest subs1 recursion f2 _ hrest b2 hb2 hmem)
                  · rw [if_neg hcont] at h
                    rw [Option.map_eq_some'] at h
                    obtain ⟨⟨f2, s2⟩, hrest, heq⟩ := h
                    simp only [Prod.mk.injEq] at heq
                    obtain ⟨-, hs⟩ := heq
                    subst hs
                    have hstep := ih rest (b :: subs1) recursion f2 _ hrest b2 hb2 hmem
                    rcases List.mem_cons.1 hstep with hbb | hbs
                    · exfalso
                      rw [hbb] at hb2
                      exact hinstb hb2
                    · exact hsubs1 b2 hb2 hbs

/-- The effects assembled by the `out:` epilogue always start with the
already-installed tracking block. -/
theorem installOut_case (bundles : List String) (toInstall : List Manifest)
    (invalid : Bool) (ret0 : Nat) (tracked0 : List String) (packs fullf : Bool)
    (ret : Nat) (eff : InstallEffects)
    (h : some (installOut bundles toInstall invalid ret0 tracked0 packs fullf) =
      some (ret, eff)) :
    ∃ t1, eff.tracked = tracked0 ++ t1 := by
  have h2 := Option.some.inj h
  have h3 : eff = (installOut bundles toInstall invalid ret0 tracked0 packs fullf).2 :=
    (congrArg Prod.snd h2).symm
  rw [h3]
  exact ⟨_, rfl⟩

/-- Whatever path `install_bundles` takes, the effect list of tracked
bundles starts with the requested bundles that were already
installed. -/
theorem install_bundles_tracked_prefix (env : InstallEnv) (fuel : Nat)
    (bundles subs : List String) (ret : Nat) (eff : InstallEffects)
    (h : install_bundles env fuel bundles subs = some (ret, eff)) :
    ∃ t1, eff.tracked =
      bundles.filter (fun b => env.sub.installed b = true) ++ t1 := by
  rw [install_bundles] at h
  cases haddsubs : add_subscriptions env.sub fuel bundles subs false 0 with
  | none =>
    rw [haddsubs] at h
    simp at h
  | some p =>
    obtain ⟨flags, subs1⟩ := p
    rw [haddsubs] at h
    simp only at h
    split at h
    · exact installOut_case _ _ _ _ _ _ _ _ _ h
    · cases hrec1 : env.recurse subs1 with
      | none =>
        rw [hrec1] at h
        simp only at h
        exact installOut_case _ _ _ _ _ _ _ _ _ h
      | some toInstall =>
        rw [hrec1] at h
        simp only at h
        cases hrec2 : env.recurse env.trackedSubs with
        | none =>
          rw [hrec2] at h
          simp only at h
          exact installOut_case _ _ _ _ _ _ _ _ _ h
        | some installedB =>
          rw [hrec2] at h
          simp only at h
          split at h
          · exact installOut_case _ _ _ _ _ _ _ _ _ h
          · split at h
            · exact installOut_case _ _ _ _ _ _ _ _ _ h
            · split at h
              · exact installOut_case _ _ _ _ _ _ _ _ _ h
              · split at h
                · exact installOut_case _ _ _ _ _ _ _ _ _ h
                · exact installOut_case _ _ _ _ _ _ _ _ _ h

/-- C3: a `bundle-add` whose requested names contain at least one name
absent from the MoM returns `INVALID_BUNDLE`: when *no* name is valid
nothing is installed and the command returns `INVALID_BUNDLE`
immediately; when valid and invalid names are mixed (the subscription
step reports both `NEW` and `BADNAME`) and the install pipeline runs
through, the valid bundles are still installed — every requested
component among the loaded to-install manifests is tracked — and the
final code is still `INVALID_BUNDLE` (the `invalid_bundle_provided`
flag overrides the `SWUPD_OK`). -/
theorem C3_invalid_bundle_mixed (env : InstallEnv) (fuel : Nat)
    (bundles subs : List String) :
    (bundles ≠ [] → (∀ b ∈ bundles, env.sub.momBundles.contains b = false) →
      bundles.length ≤ fuel →
      ∃ eff, install_bundles env fuel bundles subs = some (SWUPD_INVALID_BUNDLE, eff) ∧
        eff.packsDownloaded = false ∧ eff.fullfilesAttempted = false) ∧
    (∀ (flags : Nat) (subs1 : List String) (toInstall installedB : List Manifest),
      add_subscriptions env.sub fuel bundles subs false 0 = some (flags, subs1) →
      flags.testBit 1 = true → flags.testBit 2 = true →
      env.recurse subs1 = some toInstall →
      env.recurse env.trackedSubs = some installedB →
      (env.skipDiskspaceCheck = true ∨
        (0 ≤ env.fsFree ∧
          11 * (get_manifest_list_contentsize toInstall : Int) ≤ 10 * env.fsFree)) →
      env.downloadRet = 0 → env.hashCheckRemoveFail = false → env.stagingRet = 0 →
      ∃ eff, install_bundles env fuel bundles subs = some (SWUPD_INVALID_BUNDLE, eff) ∧
        eff.fullfilesAttempted = true ∧
        ∀ m ∈ toInstall, m.component ∈ bundles → m.component ∈ eff.tracked) := by
  constructor
  · intro hne hb hlen
    have hbe : bundles.isEmpty = false := by
      cases bundles with
      | nil => exact absurd rfl hne
      | cons x xs => rfl
    have haddsubs : add_subscriptions env.sub fuel bundles subs false 0 =
        some (add_sub_BADNAME, subs) := by
      rw [add_subscriptions_all_absent env.sub bundles fuel subs false 0 hb hlen]
      rw [hbe]
      rfl
    rw [install_bundles, haddsubs]
    simp only
    rw [if_pos (by decide : (add_sub_BADNAME : Nat).testBit 1 = false)]
    refine ⟨⟨bundles.filter (fun b => env.sub.installed b = true), false, false⟩,
      ?_, rfl, rfl⟩
    rw [installOut]
    simp only [Option.some.injEq, Prod.mk.injEq]
    refine ⟨by decide, ?_⟩
    simp
  · intro flags subs1 toInstall installedB haddsubs hNEW hBAD hrec1 hrec2 hdisk hdl hhash hstage
    rw [install_bundles, haddsubs]
    simp only
    rw [if_neg (by rw [hNEW]; simp)]
    rw [hrec1]
    simp only
    rw [hrec2]
    simp only
    rw [if_neg (by
      rintro ⟨hskip, hcase⟩
      rcases hdisk with hd | ⟨hd1, hd2⟩
      · rw [hd] at hskip
        cases hskip
      · rcases hcase with hc | hc
        · omega
        · omega)]
    rw [if_neg (by rw [hdl]; simp)]
    rw [if_neg (by rw [hhash]; simp)]
    rw [if_neg (by rw [hstage]; simp)]
    set t0 := bundles.filter (fun b => env.sub.installed b = true) with ht0
    set pk := decide (10 < (filter_out_existing_files
      (filter_out_deleted_files (consolidate_files (files_from_bundles toInstall)))
      (filter_out_deleted_files
        (consolidate_files (files_from_bundles installedB)))).length) with hpk
    have hret : (installOut bundles toInstall (flags.testBit 2) SWUPD_OK t0 pk true).1 =
        SWUPD_INVALID_BUNDLE := by
      rw [installOut]
      simp only
      rw [if_pos ⟨hBAD, rfl⟩]
    refine ⟨(installOut bundles toInstall (flags.testBit 2) SWUPD_OK t0 pk true).2,
      by rw [← hret, Prod.mk.eta], rfl, ?_⟩
    intro m hm hcomp
    have htr : (installOut bundles toInstall (flags.testBit 2) SWUPD_OK t0 pk true).2.tracked =
        t0 ++ (toInstall.filter (fun mm => bundles.contains mm.component)).map
          Manifest.component := rfl
    rw [htr, List.mem_append]
    right
    rw [List.mem_map]
    refine ⟨m, ?_, rfl⟩
    rw [List.mem_filter]
    exact ⟨hm, List.elem_iff.mpr hcomp⟩

/-- Install environment for the C3 witness: the MoM holds only `good`
(with no includes, not installed); `recurse_manifest` yields the
`good` manifest; the pipeline succeeds. -/
def instEnvC3 : InstallEnv :=
  { sub := ⟨["good"], fun _ => some [], fun _ => false⟩
  , trackedSubs := []
  , recurse := fun _ => some [⟨"good", [], 100, []⟩]
  , skipDiskspaceCheck := false
  , fsFree := 1000
  , downloadRet := 0
  , hashCheckRemoveFail := false
  , stagingRet := 0 }

/-- C3 witness: adding only the invalid `bad` returns `INVALID_BUNDLE`
with nothing downloaded; adding the mix `good bad` still installs
`good` (it ends up tracked, the install steps run) and returns
`INVALID_BUNDLE`. -/
theorem C3_invalid_bundle_mixed_witness :
    (∃ eff, install_bundles instEnvC3 3 ["bad"] [] = some (SWUPD_INVALID_BUNDLE, eff) ∧
      eff.packsDownloaded = false ∧ eff.fullfilesAttempted = false) ∧
    (∃ eff, install_bundles instEnvC3 3 ["good", "bad"] [] =
        some (SWUPD_INVALID_BUNDLE, eff) ∧
      eff.fullfilesAttempted = true ∧
      ∀ m ∈ ([⟨"good", [], 100, []⟩] : List Manifest),
        m.component ∈ ["good", "bad"] → m.component ∈ eff.tracked) :=
  ⟨(C3_invalid_bundle_mixed instEnvC3 3 ["bad"] []).1 (by decide) (by decide) (by decide),
    (C3_invalid_bundle_mixed instEnvC3 3 ["good", "bad"] []).2 6 ["good"]
      [⟨"good", [], 100, []⟩] [⟨"good", [], 100, []⟩] rfl (by decide) (by decide) rfl rfl
      (Or.inr ⟨by decide, by decide⟩) rfl rfl rfl⟩

/-- C5: with the disk-space check enabled, when the to-install content
size times 1.1 exceeds the free space on the `/usr/` filesystem (or the
free space cannot be determined, `fs_free < 0`), the installation
aborts with `DISK_SPACE_ERROR` before any pack or fullfile download;
with `--skip-diskspace-check` the check is bypassed: the run is
independent of the free-space value, and with a working pipeline the
download steps are reached regardless of free space. -/
theorem C5_diskspace_check (env : InstallEnv) (fuel : Nat) (bundles subs : List String) :
    (∀ (flags : Nat) (subs1 : List String) (toInstall installedB : List Manifest),
      add_subscriptions env.sub fuel bundles subs false 0 = some (flags, subs1) →
      flags.testBit 1 = true →
      env.recurse subs1 = some toInstall →
      env.recurse env.trackedSubs = some installedB →
      env.skipDiskspaceCheck = false →
      (10 * env.fsFree < 11 * (get_manifest_list_contentsize toInstall : Int) ∨
        env.fsFree < 0) →
      ∃ eff, install_bundles env fuel bundles subs = some (SWUPD_DISK_SPACE_ERROR, eff) ∧
        eff.packsDownloaded = false ∧ eff.fullfilesAttempted = false) ∧
    (env.skipDiskspaceCheck = true →
      ∀ f, install_bundles env fuel bundles subs =
        install_bundles { env with fsFree := f } fuel bundles subs) ∧
    (∀ (flags : Nat) (subs1 : List String) (toInstall installedB : List Manifest),
      add_subscriptions env.sub fuel bundles subs false 0 = some (flags, subs1) →
      flags.testBit 1 = true →
      env.recurse subs1 = some toInstall →
      env.recurse env.trackedSubs = some installedB →
      env.skipDiskspaceCheck = true →
      env.downloadRet = 0 → env.hashCheckRemoveFail = false → env.stagingRet = 0 →
      ∃ ret eff, install_bundles env fuel bundles subs = some (ret, eff) ∧
        eff.fullfilesAttempted = true) := by
  refine ⟨?_, ?_, ?_⟩
  · intro flags subs1 toInstall installedB haddsubs hNEW hrec1 hrec2 hskipF hfull
    rw [install_bundles, haddsubs]
    simp only
    rw [if_neg (by rw [hNEW]; simp)]
    rw [hrec1]
    simp only
    rw [hrec2]
    simp only
    rw [if_pos ⟨hskipF, hfull⟩]
    set t0 := bundles.filter (fun b => env.sub.installed b = true) with ht0
    have hret : (installOut bundles toInstall (flags.testBit 2) SWUPD_DISK_SPACE_ERROR
        t0 false false).1 = SWUPD_DISK_SPACE_ERROR := by
      rw [installOut]
      simp only
      rw [if_neg (by rintro ⟨-, h9⟩; simp [SWUPD_DISK_SPACE_ERROR] at h9)]
    exact ⟨(installOut bundles toInstall (flags.testBit 2) SWUPD_DISK_SPACE_ERROR
        t0 false false).2,
      congrArg some (Prod.ext hret rfl), rfl, rfl⟩
  · intro hskip f
    simp [install_bundles, hskip]
  · intro flags subs1 toInstall installedB haddsubs hNEW hrec1 hrec2 hskip hdl hhash hstage
    rw [install_bundles, haddsubs]
    simp only
    rw [if_neg (by rw [hNEW]; simp)]
    rw [hrec1]
    simp only
    rw [hrec2]
    simp only
    rw [if_neg (by rintro ⟨hc, -⟩; rw [hskip] at hc; cases hc)]
    rw [if_neg (by rw [hdl]; simp)]
    rw [if_neg (by rw [hhash]; simp)]
    rw [if_neg (by rw [hstage]; simp)]
    exact ⟨_, _, rfl, rfl⟩

/-- Install environment for the C5 witness, disk-check enabled: the
`big` bundle needs contentsize 10 against 5 free bytes. -/
def instEnvC5 : InstallEnv :=
  { sub := ⟨["big"], fun _ => some [], fun _ => false⟩
  , trackedSubs := []
  , recurse := fun _ => some [⟨"big", [], 10, []⟩]
  , skipDiskspaceCheck := false
  , fsFree := 5
  , downloadRet := 0
  , hashCheckRemoveFail := false
  , stagingRet := 0 }

/-- The C5 witness environment with `--skip-diskspace-check`. -/
def instEnvC5s : InstallEnv :=
  { instEnvC5 with skipDiskspaceCheck := true }

/-- C5 witness: the 10-byte bundle against 5 free bytes aborts with
`DISK_SPACE_ERROR` before any download; with the skip flag the result
is insensitive to the free-space value and the download step runs. -/
theorem C5_diskspace_check_witness :
    (∃ eff, install_bundles instEnvC5 2 ["big"] [] =
        some (SWUPD_DISK_SPACE_ERROR, eff) ∧
      eff.packsDownloaded = false ∧ eff.fullfilesAttempted = false) ∧
    (install_bundles instEnvC5s 2 ["big"] [] =
      install_bundles { instEnvC5s with fsFree := -1000 } 2 ["big"] []) ∧
    (∃ ret eff, install_bundles instEnvC5s 2 ["big"] [] = some (ret, eff) ∧
      eff.fullfilesAttempted = true) :=
  ⟨(C5_diskspace_check instEnvC5 2 ["big"] []).1 2 ["big"] [⟨"big", [], 10, []⟩]
      [⟨"big", [], 10, []⟩] rfl (by decide) rfl rfl rfl (Or.inl (by decide)),
    (C5_diskspace_check instEnvC5s 2 ["big"] []).2.1 rfl (-1000),
    (C5_diskspace_check instEnvC5s 2 ["big"] []).2.2 2 ["big"] [⟨"big", [], 10, []⟩]
      [⟨"big", [], 10, []⟩] rfl (by decide) rfl rfl rfl rfl rfl rfl⟩

/-- C9: every requested bundle that is already installed is tracked
anyway — `track_installed` runs for it on every path of
`install_bundles`; on `bundle-add X` with `X` installed and nothing new
to subscribe, the command installs nothing (no packs, no fullfiles) and
returns `SWUPD_OK` while still creating `X`'s tracking file; and (the
"not reinstalled" part) `add_subscriptions` with `find_all = false`
never appends a subscription for an installed bundle. -/
theorem C9_installed_requested_tracked (env : InstallEnv) (fuel : Nat)
    (bundles subs : List String) :
    (∀ (ret : Nat) (eff : InstallEffects),
      install_bundles env fuel bundles subs = some (ret, eff) →
      ∀ b ∈ bundles, env.sub.installed b = true → b ∈ eff.tracked) ∧
    (∀ (X : String) (subs1 : List String), env.sub.installed X = true →
      add_subscriptions env.sub fuel [X] subs false 0 = some (0, subs1) →
      install_bundles env fuel [X] subs = some (SWUPD_OK, ⟨[X], false, false⟩)) ∧
    (∀ (env2 : SubEnv) (fuel2 : Nat) (bundles2 subs2 : List String)
        (rec2 flags2 : Nat) (subs2' : List String),
      add_subscriptions env2 fuel2 bundles2 subs2 false rec2 = some (flags2, subs2') →
      ∀ b, env2.installed b = true → b ∈ subs2' → b ∈ subs2) := by
  refine ⟨?_, ?_, ?_⟩
  · intro ret eff h b hb hinst
    obtain ⟨t1, heq⟩ := install_bundles_tracked_prefix env fuel bundles subs ret eff h
    rw [heq, List.mem_append]
    left
    rw [List.mem_filter]
    exact ⟨hb, by simp [hinst]⟩
  · intro X subs1 hX haddsubs
    rw [install_bundles, haddsubs]
    simp only
    rw [if_pos (by decide : (0 : Nat).testBit 1 = false)]
    rw [installOut]
    simp only [Option.some.injEq, Prod.mk.injEq]
    refine ⟨by decide, ?_⟩
    simp [hX]
  · intro env2 fuel2 bundles2 subs2 rec2 flags2 subs2' h b hb hmem
    exact add_subscriptions_no_reinstall env2 fuel2 bundles2 subs2 rec2 flags2 subs2'
      h b hb hmem

/-- Install environment for the C9 witness: `inst` is in the MoM,
already installed, with no includes. -/
def instEnvC9 : InstallEnv :=
  { sub := ⟨["inst"], fun _ => some [], fun b => b = "inst"⟩
  , trackedSubs := []
  , recurse := fun _ => some []
  , skipDiskspaceCheck := true
  , fsFree := 0
  , downloadRet := 0
  , hashCheckRemoveFail := false
  , stagingRet := 0 }

/-- C9 witness: `bundle-add inst` with `inst` already installed
returns `SWUPD_OK`, downloads nothing, and still tracks `inst`. -/
theorem C9_installed_requested_tracked_witness :
    ("inst" ∈ (InstallEffects.mk ["inst"] false false).tracked) ∧
    (install_bundles instEnvC9 2 ["inst"] [] =
      some (SWUPD_OK, ⟨["inst"], false, false⟩)) ∧
    ("inst" ∈ ([] : List String) → "inst" ∈ ([] : List String)) :=
  ⟨(C9_installed_requested_tracked instEnvC9 2 ["inst"] []).1 SWUPD_OK
      ⟨["inst"], false, false⟩
      ((C9_installed_requested_tracked instEnvC9 2 ["inst"] []).2.1 "inst" [] rfl rfl)
      "inst" (by decide) rfl,
    (C9_installed_requested_tracked instEnvC9 2 ["inst"] []).2.1 "inst" [] rfl rfl,
    fun hm => (C9_installed_requested_tracked instEnvC9 2 ["inst"] []).2.2
      instEnvC9.sub 2 ["inst"] [] 0 0 [] rfl "inst" rfl hm⟩

end Swupd
